import Mathlib

/-!
# Verification of the glyph TrueType rasterizer / image codec core

Shallow embedding of the C sources `glyph_truetype.h`, `glyph_image.h`
(repository `clc`) into Lean 4, together with theorems settling the frozen
claims about the natural-language specification.

Modelling conventions:
* Machine integers are modelled as `Nat` / `Int`; wrap-arounds of the C code
  are written out explicitly (`% 65536`, two's-complement conversion in the
  16/32-bit big-endian readers).
* Byte buffers are `List Nat`; a read through `byteAt` of a negative or
  out-of-range index yields 0 (the C code would touch undefined memory there;
  every claim is settled on in-bounds data).
* C `float` arithmetic is modelled by exact rational arithmetic over the
  unnormalised fraction type `FQ` (numerator/denominator pair of `Int`,
  denominators kept positive by construction).  All float computations the
  claims depend on are exact in binary32 as well, so no claim hinges on
  rounding.
* File output is modelled as the list of bytes written (`..._bytes`
  functions); `fopen`/`fwrite` failures are outside the byte-level model.
-/

/-! ## Exact rational fractions modelling C `float` values -/

/-- Unnormalised fraction `num / den` of integers; all constructors and
operations below keep `den` positive.  Models C `float` values exactly. -/
structure FQ where
  num : Int
  den : Int
deriving DecidableEq

namespace FQ

def ofInt (i : Int) : FQ := ⟨i, 1⟩

def ofNat (n : Nat) : FQ := ⟨(n : Int), 1⟩

/-- The fraction `a / b` for a positive literal denominator `b`. -/
def mk' (a b : Int) : FQ := ⟨a, b⟩

def add (p q : FQ) : FQ := ⟨p.num * q.den + q.num * p.den, p.den * q.den⟩

def sub (p q : FQ) : FQ := ⟨p.num * q.den - q.num * p.den, p.den * q.den⟩

def mul (p q : FQ) : FQ := ⟨p.num * q.num, p.den * q.den⟩

def neg (p : FQ) : FQ := ⟨-p.num, p.den⟩

/-- Exact division; division by a zero value returns the junk value 0
(the C code never divides by zero on the paths the claims exercise). -/
def div (p q : FQ) : FQ :=
  if q.num = 0 then ⟨0, 1⟩
  else if 0 < q.num then ⟨p.num * q.den, p.den * q.num⟩
  else ⟨-(p.num * q.den), p.den * (-q.num)⟩

/-- `p < q` as a boolean (valid for positive denominators). -/
def blt (p q : FQ) : Bool := decide (p.num * q.den < q.num * p.den)

def abs (p : FQ) : FQ := ⟨|p.num|, p.den⟩

/-- `fminf` -/
def min (p q : FQ) : FQ := if blt q p then q else p

/-- `fmaxf` (used to model the clamping `if (a < b) a = b`) -/
def max (p q : FQ) : FQ := if blt p q then q else p

/-- `floorf` followed by conversion to int (exact: true floor). -/
def floor (p : FQ) : Int := Int.fdiv p.num p.den

/-- `ceilf` followed by conversion to int (exact: true ceiling). -/
def ceil (p : FQ) : Int := -(Int.fdiv (-p.num) p.den)

/-- C cast `(int)`/`(unsigned char)` of a float: truncation toward zero. -/
def trunc (p : FQ) : Int := Int.tdiv p.num p.den

end FQ

/-! ## Byte-buffer accessors (`glyph_ttf__get16` etc. of `glyph_truetype.h`) -/

/-- Read the byte at (possibly C-`int`) offset `i`; 0 outside the buffer. -/
def byteAt (d : List Nat) (i : Int) : Nat :=
  if 0 ≤ i then d.getD i.toNat 0 else 0

/-- `glyph_ttf__get16u`: big-endian unsigned 16-bit read. -/
def glyph_ttf__get16u (d : List Nat) (off : Int) : Nat :=
  256 * byteAt d off + byteAt d (off + 1)

/-- `glyph_ttf__get16`: big-endian signed 16-bit read (two's complement). -/
def glyph_ttf__get16 (d : List Nat) (off : Int) : Int :=
  let v := glyph_ttf__get16u d off
  if v < 32768 then (v : Int) else (v : Int) - 65536

/-- `glyph_ttf__get32`: big-endian 32-bit read, cast to signed C `int`. -/
def glyph_ttf__get32 (d : List Nat) (off : Int) : Int :=
  let v := 16777216 * byteAt d off + 65536 * byteAt d (off + 1)
    + 256 * byteAt d (off + 2) + byteAt d (off + 3)
  if v < 2147483648 then (v : Int) else (v : Int) - 4294967296

/-! ## Font handle (`glyph_font_t`) and table parsing -/

/-- `glyph_font_t`: the parsed font handle. -/
structure glyph_font_t where
  data : List Nat
  fontstart : Int
  numGlyphs : Int
  loca : Int
  head : Int
  glyf : Int
  hhea : Int
  hmtx : Int
  kern : Int
  gpos : Int
  cmap : Int
  index_map : Int
  indexToLocFormat : Int
  scale : FQ
deriving DecidableEq

/-- `glyph_ttf__isfont`: accepts exactly the four signatures
`"ttcf"`, `0x00010000`, `"OTTO"`, `"true"`. -/
def glyph_ttf__isfont (d : List Nat) (off : Int) : Bool :=
  (byteAt d off = 116 ∧ byteAt d (off+1) = 116 ∧ byteAt d (off+2) = 99 ∧ byteAt d (off+3) = 102) ∨
  (byteAt d off = 0 ∧ byteAt d (off+1) = 1 ∧ byteAt d (off+2) = 0 ∧ byteAt d (off+3) = 0) ∨
  (byteAt d off = 79 ∧ byteAt d (off+1) = 84 ∧ byteAt d (off+2) = 84 ∧ byteAt d (off+3) = 79) ∨
  (byteAt d off = 116 ∧ byteAt d (off+1) = 114 ∧ byteAt d (off+2) = 117 ∧ byteAt d (off+3) = 101)

/-- Loop body of `glyph_ttf__find_table`: scan directory entries
`i, i+1, …` while `rem` entries remain. -/
def glyph_ttf__find_table_loop (d : List Nat) (tabledir : Int)
    (t0 t1 t2 t3 : Nat) : Nat → Nat → Int
  | _, 0 => 0
  | i, rem + 1 =>
    let loc := tabledir + 16 * (i : Int)
    if byteAt d loc = t0 ∧ byteAt d (loc+1) = t1 ∧ byteAt d (loc+2) = t2 ∧ byteAt d (loc+3) = t3 then
      glyph_ttf__get32 d (loc + 8)
    else
      glyph_ttf__find_table_loop d tabledir t0 t1 t2 t3 (i + 1) rem

/-- `glyph_ttf__find_table`: linear scan of the table directory; returns the
table offset, 0 when the tag is absent. -/
def glyph_ttf__find_table (d : List Nat) (fontstart : Int) (t0 t1 t2 t3 : Nat) : Int :=
  glyph_ttf__find_table_loop d (fontstart + 12) t0 t1 t2 t3 0
    (glyph_ttf__get16u d (fontstart + 4))

/-- The cmap subtable scan of `glyph_ttf_init`: first subtable with
platform 0, or platform 3 and encoding 1 or 10, wins (`break`); result is
`cmap_offset + offset_sub`, or 0 when no subtable matches. -/
def glyph_ttf__cmap_scan (d : List Nat) (cmap_offset : Int) : Nat → Nat → Int
  | _, 0 => 0
  | i, rem + 1 =>
    let platformID := glyph_ttf__get16u d (cmap_offset + 4 + 8 * (i : Int))
    let platformSpecificID := glyph_ttf__get16u d (cmap_offset + 4 + 8 * (i : Int) + 2)
    let offset_sub := glyph_ttf__get32 d (cmap_offset + 4 + 8 * (i : Int) + 4)
    if platformID = 0 ∨ (platformID = 3 ∧ (platformSpecificID = 1 ∨ platformSpecificID = 10)) then
      cmap_offset + offset_sub
    else
      glyph_ttf__cmap_scan d cmap_offset (i + 1) rem

/-- `glyph_ttf_init`.  The C function mutates the caller's handle through a
pointer and returns an `int` success flag; modelled as a state transformer
returning `(flag, handle-after-call)`.  Field writes happen in the order of
the C code, so partially-written handles on failure paths are visible. -/
def glyph_ttf_init (font : glyph_font_t) (data : List Nat) (offset : Int) :
    Bool × glyph_font_t :=
  let f0 := { font with data := data, fontstart := offset }
  if ¬ glyph_ttf__isfont data offset then (false, f0) else
  let f1 := { f0 with
    cmap := glyph_ttf__find_table data offset 99 109 97 112     -- "cmap"
    loca := glyph_ttf__find_table data offset 108 111 99 97     -- "loca"
    head := glyph_ttf__find_table data offset 104 101 97 100    -- "head"
    glyf := glyph_ttf__find_table data offset 103 108 121 102   -- "glyf"
    hhea := glyph_ttf__find_table data offset 104 104 101 97    -- "hhea"
    hmtx := glyph_ttf__find_table data offset 104 109 116 120   -- "hmtx"
    kern := glyph_ttf__find_table data offset 107 101 114 110   -- "kern"
    gpos := glyph_ttf__find_table data offset 71 80 79 83 }     -- "GPOS"
  if f1.cmap = 0 ∨ f1.head = 0 ∨ f1.hhea = 0 ∨ f1.hmtx = 0 then (false, f1) else
  if f1.glyf ≠ 0 ∧ f1.loca = 0 then (false, f1) else
  let f2 := { f1 with indexToLocFormat := glyph_ttf__get16 data (f1.head + 50) }
  let index_map := glyph_ttf__cmap_scan data f2.cmap 0
    (glyph_ttf__get16u data (f2.cmap + 2))
  if index_map = 0 then (false, f2) else
  let f3 := { f2 with
    index_map := index_map
    numGlyphs := (glyph_ttf__get16u data (f2.hhea + 34) : Int) }
  (true, f3)

/-! ## Codepoint → glyph index (`glyph_ttf_find_glyph_index`) -/

/-- Segment scan of cmap format 4: segments `i, i+1, …` while `rem` remain.
A segment fires when `codepoint ≤ endCode` and `codepoint ≥ startCode`;
otherwise the scan continues.  `(codepoint + delta) & 0xFFFF` on a (possibly
negative) C int is `emod 65536`. -/
def glyph_ttf__fmt4_scan (d : List Nat)
    (endCount startCount idDelta idRangeOffset : Int) (codepoint : Int) :
    Nat → Nat → Int
  | _, 0 => 0
  | i, rem + 1 =>
    let endc := glyph_ttf__get16u d (endCount + (i : Int) * 2)
    if codepoint ≤ (endc : Int) then
      let start := glyph_ttf__get16u d (startCount + (i : Int) * 2)
      if (start : Int) ≤ codepoint then
        let delta := glyph_ttf__get16 d (idDelta + (i : Int) * 2)
        let rangeOffset := glyph_ttf__get16u d (idRangeOffset + (i : Int) * 2)
        if rangeOffset = 0 then
          (codepoint + delta) % 65536
        else
          let glyphIndex := glyph_ttf__get16u d
            (idRangeOffset + (i : Int) * 2 + (rangeOffset : Int) + (codepoint - start) * 2)
          if glyphIndex ≠ 0 then ((glyphIndex : Int) + delta) % 65536 else 0
      else
        glyph_ttf__fmt4_scan d endCount startCount idDelta idRangeOffset codepoint (i + 1) rem
    else
      glyph_ttf__fmt4_scan d endCount startCount idDelta idRangeOffset codepoint (i + 1) rem

/-- Group scan of cmap formats 12/13. -/
def glyph_ttf__fmt12_scan (d : List Nat) (index_map : Int) (format : Nat)
    (codepoint : Int) : Nat → Nat → Int
  | _, 0 => 0
  | i, rem + 1 =>
    let startCharCode := glyph_ttf__get32 d (index_map + 16 + (i : Int) * 12)
    let endCharCode := glyph_ttf__get32 d (index_map + 16 + (i : Int) * 12 + 4)
    if startCharCode ≤ codepoint ∧ codepoint ≤ endCharCode then
      if format = 12 then
        glyph_ttf__get32 d (index_map + 16 + (i : Int) * 12 + 8) + (codepoint - startCharCode)
      else
        glyph_ttf__get32 d (index_map + 16 + (i : Int) * 12 + 8)
    else
      glyph_ttf__fmt12_scan d index_map format codepoint (i + 1) rem

/-- `glyph_ttf_find_glyph_index`: dispatch on the subtable format field. -/
def glyph_ttf_find_glyph_index (font : glyph_font_t) (codepoint : Int) : Int :=
  let d := font.data
  let index_map := font.index_map
  let format := glyph_ttf__get16u d index_map
  if format = 0 then
    let bytes := glyph_ttf__get16u d (index_map + 2)
    if codepoint < (bytes : Int) - 6 then (byteAt d (index_map + 6 + codepoint) : Int)
    else 0
  else if format = 6 then
    let first := glyph_ttf__get16u d (index_map + 6)
    let count := glyph_ttf__get16u d (index_map + 8)
    if (first : Int) ≤ codepoint ∧ codepoint < (first : Int) + (count : Int) then
      (glyph_ttf__get16u d (index_map + 10 + (codepoint - first) * 2) : Int)
    else 0
  else if format = 4 then
    let segcount := glyph_ttf__get16u d (index_map + 6) / 2
    let endCount := index_map + 14
    let startCount := endCount + (segcount : Int) * 2 + 2
    let idDelta := startCount + (segcount : Int) * 2
    let idRangeOffset := idDelta + (segcount : Int) * 2
    glyph_ttf__fmt4_scan d endCount startCount idDelta idRangeOffset codepoint 0 segcount
  else if format = 12 ∨ format = 13 then
    let nGroups := glyph_ttf__get32 d (index_map + 12)
    glyph_ttf__fmt12_scan d index_map format codepoint 0 nGroups.toNat
  else 0

/-! ## Glyph location, bounding box, metrics -/

/-- `glyph_ttf__get_glyph_offset`: two adjacent loca entries (2-byte doubled
or 4-byte as-is, depending on `indexToLocFormat`); `-1` when equal (empty
glyph sentinel), else the offset into `glyf`. -/
def glyph_ttf__get_glyph_offset (font : glyph_font_t) (glyph_index : Int) : Int :=
  let d := font.data
  let offset := font.loca + glyph_index * (if font.indexToLocFormat ≠ 0 then 4 else 2)
  let g1 := font.glyf + (if font.indexToLocFormat ≠ 0 then glyph_ttf__get32 d offset
    else (glyph_ttf__get16u d offset : Int) * 2)
  let g2 := font.glyf + (if font.indexToLocFormat ≠ 0 then glyph_ttf__get32 d (offset + 4)
    else (glyph_ttf__get16u d (offset + 2) : Int) * 2)
  if g1 = g2 then -1 else g1

/-- The four fields of `glyph_bbox_t` written by `glyph_ttf_get_glyph_bbox`
(the C function leaves `advance`/`left_side_bearing` untouched). -/
structure glyph_bbox_t where
  x0 : Int
  y0 : Int
  x1 : Int
  y1 : Int
deriving DecidableEq

/-- `glyph_ttf_get_glyph_bbox`. -/
def glyph_ttf_get_glyph_bbox (font : glyph_font_t) (glyph_index : Int) : glyph_bbox_t :=
  if font.numGlyphs ≤ glyph_index then ⟨0, 0, 0, 0⟩ else
  let d := font.data
  let g := glyph_ttf__get_glyph_offset font glyph_index
  if g < 0 then ⟨0, 0, 0, 0⟩ else
  ⟨glyph_ttf__get16 d (g + 2), glyph_ttf__get16 d (g + 4),
   glyph_ttf__get16 d (g + 6), glyph_ttf__get16 d (g + 8)⟩

/-- `glyph_ttf_get_glyph_advance`. -/
def glyph_ttf_get_glyph_advance (font : glyph_font_t) (glyph_index : Int) : Int :=
  let d := font.data
  let numOfLongHorMetrics := glyph_ttf__get16u d (font.hhea + 34)
  if glyph_index < (numOfLongHorMetrics : Int) then
    (glyph_ttf__get16u d (font.hmtx + 4 * glyph_index) : Int)
  else
    (glyph_ttf__get16u d (font.hmtx + 4 * ((numOfLongHorMetrics : Int) - 1)) : Int)

/-- `glyph_ttf_scale_for_pixel_height`: `pixels / unitsPerEm`. -/
def glyph_ttf_scale_for_pixel_height (font : glyph_font_t) (pixels : FQ) : FQ :=
  FQ.div pixels (FQ.ofNat (glyph_ttf__get16u font.data (font.head + 18)))

/-! ## Outline decoding and scanline rasterization -/

/-- `glyph_point_t`: a scaled outline point. -/
structure glyph_point_t where
  x : FQ
  y : FQ
  on_curve : Bool
deriving DecidableEq

instance : Inhabited glyph_point_t := ⟨⟨FQ.ofInt 0, FQ.ofInt 0, false⟩⟩

/-- `glyph_ttf__add_edge`: accumulate one directed edge into the per-pixel
float grid.  Near-horizontal edges (|Δy| < 0.001) contribute nothing; the
0.001f literal is modelled by the exact value 1/1000. -/
def glyph_ttf__add_edge (w h : Nat) (accum : List FQ)
    (x0 y0 x1 y1 : FQ) : List FQ :=
  if FQ.blt (FQ.abs (FQ.sub y1 y0)) (FQ.mk' 1 1000) then accum else
  let swapped := FQ.blt y1 y0
  let dir : FQ := if swapped then FQ.ofInt (-1) else FQ.ofInt 1
  let x0' := if swapped then x1 else x0
  let y0' := if swapped then y1 else y0
  let x1' := if swapped then x0 else x1
  let y1' := if swapped then y0 else y1
  let y_start := FQ.floor y0'
  let y_end := FQ.ceil y1'
  if y_end ≤ 0 ∨ (h : Int) ≤ y_start then accum else
  let ys := if y_start < 0 then 0 else y_start
  let ye := if (h : Int) < y_end then (h : Int) else y_end
  let dx := FQ.sub x1' x0'
  let dy := FQ.sub y1' y0'
  (List.range (ye - ys).toNat).foldl (fun acc j =>
    let y : Int := ys + (j : Int)
    let sy0 := FQ.max (FQ.ofInt y) y0'
    let sy1 := FQ.min (FQ.ofInt (y + 1)) y1'
    let coverage := FQ.sub sy1 sy0
    let y_mid := FQ.mul (FQ.add sy0 sy1) (FQ.mk' 1 2)
    let x_mid := FQ.add x0' (FQ.div (FQ.mul dx (FQ.sub y_mid y0')) dy)
    let x_int := FQ.floor x_mid
    if 0 ≤ x_int ∧ x_int < (w : Int) then
      let idx := (y * (w : Int) + x_int).toNat
      acc.set idx (FQ.add (acc.getD idx (FQ.ofInt 0)) (FQ.mul coverage dir))
    else acc) accum

/-- The quadratic Bézier flattening of `glyph_ttf__rasterize_shape`:
32 line segments from `p0` through control `p1` to `p2`, each added as an
edge; returns the updated accumulator. -/
def glyph_ttf__flatten_bezier (w h : Nat) (accum : List FQ)
    (p0 p1 p2 : glyph_point_t) : List FQ :=
  ((List.range' 1 32).foldl (fun (st : FQ × FQ × List FQ) t =>
    let u := FQ.mk' (t : Int) 32
    let b0 := FQ.mul (FQ.sub (FQ.ofInt 1) u) (FQ.sub (FQ.ofInt 1) u)
    let b1 := FQ.mul (FQ.mul (FQ.ofInt 2) (FQ.sub (FQ.ofInt 1) u)) u
    let b2 := FQ.mul u u
    let x := FQ.add (FQ.add (FQ.mul b0 p0.x) (FQ.mul b1 p1.x)) (FQ.mul b2 p2.x)
    let y := FQ.add (FQ.add (FQ.mul b0 p0.y) (FQ.mul b1 p1.y)) (FQ.mul b2 p2.y)
    (x, y, glyph_ttf__add_edge w h st.2.2 st.1 st.2.1 x y))
    (p0.x, p0.y, accum)).2.2

/-- The inner `while (i < n_points)` walk of one contour in
`glyph_ttf__rasterize_shape`; `i` advances by 1 or 2 per iteration. -/
def glyph_ttf__walk_contour (w h : Nat) (points : List glyph_point_t)
    (n : Nat) (i : Nat) (accum : List FQ) : List FQ :=
  if hn : i < n then
    let p0 := points.getD i default
    let next := (i + 1) % n
    let p1 := points.getD next default
    if p0.on_curve ∧ p1.on_curve then
      glyph_ttf__walk_contour w h points n (i + 1)
        (glyph_ttf__add_edge w h accum p0.x p0.y p1.x p1.y)
    else if p0.on_curve ∧ ¬ p1.on_curve then
      let next2 := (i + 2) % n
      let p2raw := points.getD next2 default
      let p2 : glyph_point_t :=
        if ¬ p2raw.on_curve then
          ⟨FQ.mul (FQ.add p1.x p2raw.x) (FQ.mk' 1 2),
           FQ.mul (FQ.add p1.y p2raw.y) (FQ.mk' 1 2), p2raw.on_curve⟩
        else p2raw
      let accum' := glyph_ttf__flatten_bezier w h accum p0 p1 p2
      glyph_ttf__walk_contour w h points n
        (i + (if ¬ (points.getD next2 default).on_curve then 1 else 2)) accum'
    else
      glyph_ttf__walk_contour w h points n (i + 1) accum
  else accum
termination_by n - i
decreasing_by
  · omega
  · split <;> omega
  · omega

/-- `glyph_ttf__rasterize_shape`: accumulate all edges, then sweep each row
left to right; |running winding|, clamped to 1, scaled to 255 (truncated by
the `unsigned char` cast). -/
def glyph_ttf__rasterize_shape (w h : Nat)
    (contours : List (List glyph_point_t)) : List Nat :=
  let accum := contours.foldl (fun acc points =>
    if points.length < 2 then acc
    else glyph_ttf__walk_contour w h points points.length 0 acc)
    (List.replicate (w * h) (FQ.ofInt 0))
  ((List.range h).map (fun y =>
    ((List.range w).foldl (fun (st : FQ × List Nat) x =>
      let winding := FQ.add st.1 (accum.getD (y * w + x) (FQ.ofInt 0))
      let a := FQ.abs winding
      let alpha := if FQ.blt (FQ.ofInt 1) a then FQ.ofInt 1 else a
      (winding, st.2 ++ [(FQ.mul alpha (FQ.ofInt 255)).trunc.toNat]))
      (FQ.ofInt 0, [])).2)).flatten

/-- The flag-decoding `while` loop of `glyph_ttf_get_glyph_bitmap`:
run-length repeat expansion (`flag & 8` selects a repeat-count byte, the
count is clipped to the points that remain).  Returns the flags list and the
data index after the loop. -/
def glyph_ttf__parse_flags (d : List Nat) : Nat → Int → List Nat × Int
  | 0, di => ([], di)
  | rem + 1, di =>
    let flag := byteAt d di
    if flag &&& 8 ≠ 0 then
      let repeat_count := byteAt d (di + 1)
      let reps := Min.min repeat_count rem
      let r := glyph_ttf__parse_flags d (rem - reps) (di + 2)
      (flag :: (List.replicate reps flag ++ r.1), r.2)
    else
      let r := glyph_ttf__parse_flags d rem (di + 1)
      (flag :: r.1, r.2)
termination_by rem _ => rem
decreasing_by all_goals omega

/-- The delta-decoded coordinate loops of `glyph_ttf_get_glyph_bitmap`;
`mShort`/`mSame` are the flag masks (2/16 for x, 4/32 for y).  Returns the
accumulated coordinates and the data index after the loop. -/
def glyph_ttf__parse_coords (d : List Nat) (mShort mSame : Nat) :
    List Nat → Int → Int → List Int × Int
  | [], _, di => ([], di)
  | flag :: rest, x, di =>
    if flag &&& mShort ≠ 0 then
      let dxu := byteAt d di
      let dx : Int := if flag &&& mSame ≠ 0 then (dxu : Int) else -(dxu : Int)
      let r := glyph_ttf__parse_coords d mShort mSame rest (x + dx) (di + 1)
      ((x + dx) :: r.1, r.2)
    else if flag &&& mSame = 0 then
      let x' := x + glyph_ttf__get16 d di
      let r := glyph_ttf__parse_coords d mShort mSame rest x' (di + 2)
      (x' :: r.1, r.2)
    else
      let r := glyph_ttf__parse_coords d mShort mSame rest x di
      (x :: r.1, r.2)

/-- Rebuild of one contour in `glyph_ttf_get_glyph_bitmap`: each point is
translated by `-xMin`, scaled, y-flipped (`yMax - y`); between two
consecutive off-curve points an on-curve midpoint is synthesized. -/
def glyph_ttf__build_contour (point_flags : List Nat) (x_coords y_coords : List Int)
    (xMin yMax : Int) (scale_x scale_y : FQ) (start_pt end_pt : Nat) :
    List glyph_point_t :=
  (List.range' start_pt (end_pt + 1 - start_pt)).foldl (fun out p =>
    let next_p := if p = end_pt then start_pt else p + 1
    let base : glyph_point_t :=
      ⟨FQ.mul (FQ.ofInt (x_coords.getD p 0 - xMin)) scale_x,
       FQ.mul (FQ.ofInt (yMax - y_coords.getD p 0)) scale_y,
       point_flags.getD p 0 &&& 1 ≠ 0⟩
    if point_flags.getD p 0 &&& 1 = 0 ∧ point_flags.getD next_p 0 &&& 1 = 0 then
      out ++ [base,
        ⟨FQ.mul (FQ.sub (FQ.mul (FQ.ofInt (x_coords.getD p 0 + x_coords.getD next_p 0)) (FQ.mk' 1 2)) (FQ.ofInt xMin)) scale_x,
         FQ.mul (FQ.sub (FQ.ofInt yMax) (FQ.mul (FQ.ofInt (y_coords.getD p 0 + y_coords.getD next_p 0)) (FQ.mk' 1 2))) scale_y,
         true⟩]
    else out ++ [base]) []

/-- Result of `glyph_ttf_get_glyph_bitmap`: the returned pointer (`none` for
`NULL`) together with the four out-parameters. -/
structure glyph_bitmap_result where
  bitmap : Option (List Nat)
  width : Int
  height : Int
  xoff : Int
  yoff : Int
deriving DecidableEq

/-- `glyph_ttf_get_glyph_bitmap`.  An empty glyph (offset sentinel `-1`), a
non-positive computed size, and a non-positive `numberOfContours` (composite
or empty outline) all return the blank result `(NULL, 0, 0, 0, 0)`. -/
def glyph_ttf_get_glyph_bitmap (font : glyph_font_t) (glyph_index : Int)
    (scale_x scale_y : FQ) : glyph_bitmap_result :=
  let d := font.data
  let g := glyph_ttf__get_glyph_offset font glyph_index
  if g < 0 then ⟨none, 0, 0, 0, 0⟩ else
  let numberOfContours := glyph_ttf__get16 d g
  if 0 < numberOfContours then
    let xMin := glyph_ttf__get16 d (g + 2)
    let yMin := glyph_ttf__get16 d (g + 4)
    let xMax := glyph_ttf__get16 d (g + 6)
    let yMax := glyph_ttf__get16 d (g + 8)
    let w := FQ.ceil (FQ.mul (FQ.ofInt (xMax - xMin)) scale_x) + 1
    let h := FQ.ceil (FQ.mul (FQ.ofInt (yMax - yMin)) scale_y) + 1
    if w ≤ 0 ∨ h ≤ 0 then ⟨none, 0, 0, 0, 0⟩ else
    let nc := numberOfContours.toNat
    let endPtsOfContours := g + 10
    let instructionLength := glyph_ttf__get16u d (endPtsOfContours + (nc : Int) * 2)
    let instructions := endPtsOfContours + (nc : Int) * 2 + 2
    let flags_start := instructions + (instructionLength : Int)
    let lastEndPt := glyph_ttf__get16u d (endPtsOfContours + ((nc : Int) - 1) * 2)
    let n_points := lastEndPt + 1
    let pf := glyph_ttf__parse_flags d n_points flags_start
    let xc := glyph_ttf__parse_coords d 2 16 pf.1 0 pf.2
    let yc := glyph_ttf__parse_coords d 4 32 pf.1 0 xc.2
    let contours := (List.range nc).map (fun c =>
      let start_pt := if c = 0 then 0
        else glyph_ttf__get16u d (endPtsOfContours + ((c : Int) - 1) * 2) + 1
      let end_pt := glyph_ttf__get16u d (endPtsOfContours + (c : Int) * 2)
      glyph_ttf__build_contour pf.1 xc.1 yc.1 xMin yMax scale_x scale_y start_pt end_pt)
    let bitmap := glyph_ttf__rasterize_shape w.toNat h.toNat contours
    ⟨some bitmap, w, h,
     (FQ.mul (FQ.ofInt xMin) scale_x).trunc,
     (FQ.mul (FQ.ofInt yMax) scale_y).trunc⟩
  else ⟨none, 0, 0, 0, 0⟩

/-! ## Signed distance field (`glyph_ttf_get_glyph_sdf_bitmap`) -/

/-- Binary mask: threshold the coverage bitmap at 127 (`bitmap[i] > 127`). -/
def glyph_ttf__sdf_mask (bitmap : List Nat) (w h : Nat) : List Nat :=
  (List.range (w * h)).map (fun i => if 127 < bitmap.getD i 0 then 1 else 0)

/-- One row relaxed left→right: `dt[idx] = min(dt[idx], dt[idx-1] + 1)`. -/
def glyph_ttf__sdf_row_lr (w : Nat) (y : Nat) (dt : List FQ) : List FQ :=
  (List.range w).foldl (fun dt x =>
    let idx := y * w + x
    if 0 < x then dt.set idx (FQ.min (dt.getD idx (FQ.ofInt 0))
      (FQ.add (dt.getD (idx - 1) (FQ.ofInt 0)) (FQ.ofInt 1))) else dt) dt

/-- One row relaxed right→left: `dt[idx] = min(dt[idx], dt[idx+1] + 1)`. -/
def glyph_ttf__sdf_row_rl (w : Nat) (y : Nat) (dt : List FQ) : List FQ :=
  ((List.range w).reverse).foldl (fun dt x =>
    let idx := y * w + x
    if x < w - 1 then dt.set idx (FQ.min (dt.getD idx (FQ.ofInt 0))
      (FQ.add (dt.getD (idx + 1) (FQ.ofInt 0)) (FQ.ofInt 1))) else dt) dt

/-- One column relaxed top→bottom. -/
def glyph_ttf__sdf_col_td (w h : Nat) (x : Nat) (dt : List FQ) : List FQ :=
  (List.range h).foldl (fun dt y =>
    let idx := y * w + x
    if 0 < y then dt.set idx (FQ.min (dt.getD idx (FQ.ofInt 0))
      (FQ.add (dt.getD ((y - 1) * w + x) (FQ.ofInt 0)) (FQ.ofInt 1))) else dt) dt

/-- One column relaxed bottom→top. -/
def glyph_ttf__sdf_col_bu (w h : Nat) (x : Nat) (dt : List FQ) : List FQ :=
  ((List.range h).reverse).foldl (fun dt y =>
    let idx := y * w + x
    if y < h - 1 then dt.set idx (FQ.min (dt.getD idx (FQ.ofInt 0))
      (FQ.add (dt.getD ((y + 1) * w + x) (FQ.ofInt 0)) (FQ.ofInt 1))) else dt) dt

/-- The 4-pass relaxation applied to both distance fields of
`glyph_ttf_get_glyph_sdf_bitmap` (the C code repeats the identical loop nest
for `dt1` and `dt0`): per row left→right then right→left, then per column
top→bottom then bottom→top. -/
def glyph_ttf__sdf_relax (w h : Nat) (dtInit : List FQ) : List FQ :=
  let dt := (List.range h).foldl (fun dt y =>
    glyph_ttf__sdf_row_rl w y (glyph_ttf__sdf_row_lr w y dt)) dtInit
  (List.range w).foldl (fun dt x =>
    glyph_ttf__sdf_col_bu w h x (glyph_ttf__sdf_col_td w h x dt)) dt

/-- Outside distance field `dt1`: 0 on mask pixels, 1e9 elsewhere, relaxed. -/
def glyph_ttf__sdf_dt1 (bitmap : List Nat) (w h : Nat) : List FQ :=
  glyph_ttf__sdf_relax w h ((List.range (w * h)).map (fun i =>
    if (glyph_ttf__sdf_mask bitmap w h).getD i 0 ≠ 0 then FQ.ofInt 0
    else FQ.ofInt 1000000000))

/-- Inside distance field `dt0`: 1e9 on mask pixels, 0 elsewhere, relaxed. -/
def glyph_ttf__sdf_dt0 (bitmap : List Nat) (w h : Nat) : List FQ :=
  glyph_ttf__sdf_relax w h ((List.range (w * h)).map (fun i =>
    if (glyph_ttf__sdf_mask bitmap w h).getD i 0 ≠ 0 then FQ.ofInt 1000000000
    else FQ.ofInt 0))

/-- Raw signed distance at pixel `i`: `-dt0[i]` inside, `+dt1[i]` outside. -/
def glyph_ttf__sdf_rawdist (bitmap : List Nat) (w h : Nat) (i : Nat) : FQ :=
  if (glyph_ttf__sdf_mask bitmap w h).getD i 0 ≠ 0 then
    FQ.neg ((glyph_ttf__sdf_dt0 bitmap w h).getD i (FQ.ofInt 0))
  else (glyph_ttf__sdf_dt1 bitmap w h).getD i (FQ.ofInt 0)

/-- The clamp of the final loop: `if (dist < -spread) dist = -spread;
if (dist > spread) dist = spread;`. -/
def glyph_ttf__sdf_clamp (spread : Int) (dist : FQ) : FQ :=
  let dist := if FQ.blt dist (FQ.ofInt (-spread)) then FQ.ofInt (-spread) else dist
  if FQ.blt (FQ.ofInt spread) dist then FQ.ofInt spread else dist

/-- The linear remap of the final loop, including the `unsigned char` cast:
`(dist / spread + 1.0f) * 0.5f * 255.0f`. -/
def glyph_ttf__sdf_remap (spread : Int) (dist : FQ) : Nat :=
  (FQ.mul (FQ.mul (FQ.add (FQ.div dist (FQ.ofInt spread)) (FQ.ofInt 1))
    (FQ.mk' 1 2)) (FQ.ofInt 255)).trunc.toNat

/-- `glyph_ttf_get_glyph_sdf_bitmap`. -/
def glyph_ttf_get_glyph_sdf_bitmap (bitmap : List Nat) (w h : Nat)
    (spread : Int) : List Nat :=
  (List.range (w * h)).map (fun i =>
    glyph_ttf__sdf_remap spread
      (glyph_ttf__sdf_clamp spread (glyph_ttf__sdf_rawdist bitmap w h i)))

/-! ## Image codec (`glyph_image.h`) -/

/-- `glyph_image_t`: an RGB image, 3 bytes per pixel, row-major. -/
structure glyph_image_t where
  width : Nat
  height : Nat
  data : List Nat
deriving DecidableEq

/-- One entry of the CRC32 lookup table built by `crc32_init_table`:
8 rounds of the IEEE 802.3 polynomial step on byte `n`. -/
def crc32_table_entry (n : Nat) : Nat :=
  (List.range 8).foldl (fun crc _ =>
    if crc % 2 = 1 then (crc / 2) ^^^ 0xEDB88320 else crc / 2) n

/-- `crc32`: table-driven CRC32, initial value `0xFFFFFFFF`, final XOR. -/
def crc32 (data : List Nat) : Nat :=
  (data.foldl (fun crc b =>
    (crc / 256) ^^^ crc32_table_entry ((crc ^^^ b) % 256)) 0xFFFFFFFF) ^^^ 0xFFFFFFFF

/-- `adler32`: both sums mod 65521, result `(b << 16) | a`. -/
def adler32 (data : List Nat) : Nat :=
  let s := data.foldl (fun (s : Nat × Nat) byte =>
    let a := (s.1 + byte) % 65521
    ((s.1 + byte) % 65521, (s.2 + a) % 65521)) (1, 0)
  s.2 * 65536 + s.1

/-- `write_u32_be`: 4 bytes, most significant first. -/
def write_u32_be (v : Nat) : List Nat :=
  [v / 16777216 % 256, v / 65536 % 256, v / 256 % 256, v % 256]

/-- `write_u32_le`: 4 bytes, least significant first. -/
def write_u32_le (v : Nat) : List Nat :=
  [v % 256, v / 256 % 256, v / 65536 % 256, v / 16777216 % 256]

/-- One pixel row as written by `glyph_write_bmp`: BGR byte triples followed
by zero padding to a 4-byte boundary. -/
def glyph_bmp_row (img : glyph_image_t) (y : Nat) : List Nat :=
  ((List.range img.width).map (fun x =>
    [img.data.getD ((y * img.width + x) * 3 + 2) 0,
     img.data.getD ((y * img.width + x) * 3 + 1) 0,
     img.data.getD ((y * img.width + x) * 3 + 0) 0])).flatten
  ++ List.replicate ((4 - (img.width * 3 % 4)) % 4) 0

/-- `row_size` of `glyph_write_bmp`: the pixel-row byte size padded to a
4-byte boundary. -/
def glyph_bmp_row_size (img : glyph_image_t) : Nat := (img.width * 3 + 3) / 4 * 4

/-- The 14-byte BMP file header written by `glyph_write_bmp`
(`file_size = 54 + row_size * height`, little-endian). -/
def glyph_bmp_fileheader (img : glyph_image_t) : List Nat :=
  [66, 77,
   (54 + glyph_bmp_row_size img * img.height) % 256,
   (54 + glyph_bmp_row_size img * img.height) / 256 % 256,
   (54 + glyph_bmp_row_size img * img.height) / 65536 % 256,
   (54 + glyph_bmp_row_size img * img.height) / 16777216 % 256,
   0, 0, 0, 0,
   54, 0, 0, 0]

/-- The 40-byte BMP info header written by `glyph_write_bmp` (header size
40, dimensions, 1 plane, 24 bits/pixel, `data_size = row_size * height`). -/
def glyph_bmp_infoheader (img : glyph_image_t) : List Nat :=
  [40, 0, 0, 0,
   img.width % 256, img.width / 256 % 256,
   img.width / 65536 % 256, img.width / 16777216 % 256,
   img.height % 256, img.height / 256 % 256,
   img.height / 65536 % 256, img.height / 16777216 % 256,
   1, 0, 24, 0,
   0, 0, 0, 0,
   glyph_bmp_row_size img * img.height % 256,
   glyph_bmp_row_size img * img.height / 256 % 256,
   glyph_bmp_row_size img * img.height / 65536 % 256,
   glyph_bmp_row_size img * img.height / 16777216 % 256,
   0, 0, 0, 0, 0, 0, 0, 0, 0, 0, 0, 0, 0, 0, 0, 0]

/-- The byte stream written by `glyph_write_bmp`: 14-byte file header,
40-byte info header, pixel rows bottom-to-top. -/
def glyph_write_bmp_bytes (img : glyph_image_t) : List Nat :=
  glyph_bmp_fileheader img ++ glyph_bmp_infoheader img ++
    ((List.range img.height).reverse.map (glyph_bmp_row img)).flatten

/-- One filtered row of `glyph_write_png`: filter-type byte 1 (Sub), then
`row[i] - row[i-3]` modulo 256 (`unsigned char` subtraction), the first
pixel unfiltered. -/
def glyph_png_filter_row (row : List Nat) : List Nat :=
  1 :: (List.range row.length).map (fun i =>
    if i < 3 then row.getD i 0
    else (row.getD i 0 + 256 - row.getD (i - 3) 0) % 256)

/-- The Sub-filtered raw stream of `glyph_write_png`: one filtered row per
image row, in top-to-bottom order. -/
def glyph_png_raw (img : glyph_image_t) : List Nat :=
  ((List.range img.height).map (fun y =>
    glyph_png_filter_row ((img.data.drop (y * img.width * 3)).take (img.width * 3)))).flatten

/-- The DEFLATE stored-block loop of `glyph_write_png`: blocks of at most
65535 bytes, each `[BFINAL|BTYPE=0, LEN lo, LEN hi, NLEN lo, NLEN hi]`
followed by the literal bytes; BFINAL set on the last block. -/
def glyph_png_stored_blocks (raw : List Nat) : List Nat :=
  if raw.isEmpty then [] else
  let block_len := Min.min raw.length 65535
  let bfinal := if raw.length ≤ 65535 then 1 else 0
  let nlen := 65535 - block_len
  (bfinal :: [block_len % 256, block_len / 256, nlen % 256, nlen / 256])
    ++ raw.take 65535 ++ glyph_png_stored_blocks (raw.drop 65535)
termination_by raw.length
decreasing_by
  simp only [List.isEmpty_iff] at *
  have hpos : 0 < raw.length := List.length_pos.mpr (by assumption)
  simp only [List.length_drop]
  omega

/-- The zlib stream of `glyph_write_png`: header `0x78 0x01`, stored
blocks, big-endian Adler32 of the raw (filtered) stream. -/
def glyph_png_zlib (raw : List Nat) : List Nat :=
  [0x78, 0x01] ++ glyph_png_stored_blocks raw ++ write_u32_be (adler32 raw)

/-- The IHDR chunk data of `glyph_write_png`: width, height big-endian,
bit depth 8, color type 2, compression 0, filter 0, interlace 0. -/
def glyph_png_ihdr_data (img : glyph_image_t) : List Nat :=
  write_u32_be (img.width % 4294967296) ++ write_u32_be (img.height % 4294967296)
    ++ [8, 2, 0, 0, 0]

/-- The byte stream written by `glyph_write_png`: signature, IHDR chunk, a
single IDAT chunk holding the zlib stream (its length field carries the
`uint32` cast of the C code), zero-length IEND chunk; every chunk is
length, type tag, data, CRC32 of tag++data. -/
def glyph_write_png_bytes (img : glyph_image_t) : List Nat :=
  [137, 80, 78, 71, 13, 10, 26, 10]
  ++ write_u32_be 13 ++ [73, 72, 68, 82] ++ glyph_png_ihdr_data img
    ++ write_u32_be (crc32 ([73, 72, 68, 82] ++ glyph_png_ihdr_data img))
  ++ write_u32_be ((glyph_png_zlib (glyph_png_raw img)).length % 4294967296)
    ++ [73, 68, 65, 84] ++ glyph_png_zlib (glyph_png_raw img)
    ++ write_u32_be (crc32 ([73, 68, 65, 84] ++ glyph_png_zlib (glyph_png_raw img)))
  ++ write_u32_be 0 ++ [73, 69, 78, 68] ++ write_u32_be (crc32 [73, 69, 78, 68])

/-! ## A standard-conforming PNG decoder (specification side)

Modelled from the spec: `glyph_write_png` must produce a stream that "when
decoded by any standard conforming PNG decoder, reproduces the exact
original RGB buffer".  The decoder below implements the PNG 1.2 / RFC 1950 /
RFC 1951 rules for the feature subset a conforming decoder applies to such a
file: signature, CRC-checked chunks, IHDR for 8-bit RGB non-interlaced,
IDAT concatenation, zlib header check, DEFLATE stored blocks, Adler32
verification, and per-row unfiltering (filter types 0 and 1 = Sub). -/

/-- Read a big-endian 32-bit value. -/
def readU32BE : List Nat → Option (Nat × List Nat)
  | b0 :: b1 :: b2 :: b3 :: rest =>
    some (16777216 * b0 + 65536 * b1 + 256 * b2 + b3, rest)
  | _ => none

/-- Parse one chunk: big-endian length, 4-byte type tag, data, CRC32 that
must equal the CRC32 of tag ++ data. -/
def png_parse_chunk (s : List Nat) : Option (List Nat × List Nat × List Nat) := do
  let (len, s1) ← readU32BE s
  if 4 + len ≤ s1.length then
    let ty := s1.take 4
    let data := (s1.drop 4).take len
    let (crc, s4) ← readU32BE ((s1.drop 4).drop len)
    if crc = crc32 (ty ++ data) then some (ty, data, s4) else none
  else none

/-- Chunk loop after IHDR: concatenate the data of all IDAT chunks, skip
other (ancillary) chunks, stop at a zero-length IEND that ends the file. -/
def png_read_chunks : Nat → List Nat → List Nat → Option (List Nat)
  | 0, _, _ => none
  | fuel + 1, s, acc => do
    let (ty, data, rest) ← png_parse_chunk s
    if ty = [73, 69, 78, 68] then
      if data = [] ∧ rest = [] then some acc else none
    else if ty = [73, 68, 65, 84] then
      png_read_chunks fuel rest (acc ++ data)
    else
      png_read_chunks fuel rest acc

/-- List the chunk type tags of a chunk stream (used to state that the
written file consists of exactly IHDR, one IDAT, IEND). -/
def png_chunk_types : Nat → List Nat → Option (List (List Nat))
  | 0, _ => none
  | fuel + 1, s =>
    if s = [] then some [] else do
      let (ty, _, rest) ← png_parse_chunk s
      let more ← png_chunk_types fuel rest
      some (ty :: more)

/-- Inflate a sequence of DEFLATE stored blocks (RFC 1951 §3.2.4): header
byte with BTYPE = 0, LEN little-endian, NLEN its one's complement, literal
bytes; the BFINAL bit ends the stream.  Returns payload and what follows. -/
def png_inflate_stored : Nat → List Nat → Option (List Nat × List Nat)
  | 0, _ => none
  | fuel + 1, hdr :: l0 :: l1 :: n0 :: n1 :: rest =>
    if hdr / 2 % 4 ≠ 0 then none else
    let len := 256 * l1 + l0
    if 256 * n1 + n0 ≠ 65535 - len then none else
    if len ≤ rest.length then
      if hdr % 2 = 1 then some (rest.take len, rest.drop len)
      else do
        let (more, rest') ← png_inflate_stored fuel (rest.drop len)
        some (rest.take len ++ more, rest')
    else none
  | _ + 1, _ => none

/-- Decode a zlib stream (RFC 1950): CM = 8, header check divisible by 31,
no preset dictionary, DEFLATE body, big-endian Adler32 trailer that must
match and end the stream. -/
def png_zlib_decode (s : List Nat) : Option (List Nat) :=
  match s with
  | cmf :: flg :: rest =>
    if cmf % 16 ≠ 8 then none else
    if (cmf * 256 + flg) % 31 ≠ 0 then none else
    if flg / 32 % 2 ≠ 0 then none else do
      let (raw, tail) ← png_inflate_stored (rest.length + 1) rest
      if tail = write_u32_be (adler32 raw) then some raw else none
  | _ => none

/-- Sub-filter reconstruction: `Recon(i) = Filt(i) + Recon(i-3) mod 256`,
the first pixel's bytes taken as-is. -/
def png_recon_byte (filt : List Nat) (i : Nat) : Nat :=
  if i < 3 then filt.getD i 0 % 256
  else (filt.getD i 0 + png_recon_byte filt (i - 3)) % 256
termination_by i
decreasing_by omega

/-- Unfilter one row: leading filter-type byte 0 (None) or 1 (Sub). -/
def png_unfilter_row (row : List Nat) : Option (List Nat) :=
  match row with
  | ft :: filt =>
    if ft = 0 then some filt
    else if ft = 1 then some ((List.range filt.length).map (png_recon_byte filt))
    else none
  | [] => none

/-- Decode a PNG stream holding an 8-bit RGB non-interlaced image; returns
width, height and the RGB pixel bytes. -/
def png_decode_spec (s : List Nat) : Option (Nat × Nat × List Nat) :=
  if s.take 8 ≠ [137, 80, 78, 71, 13, 10, 26, 10] then none else do
  let (ty, ihdr, rest) ← png_parse_chunk (s.drop 8)
  if ty ≠ [73, 72, 68, 82] then none else
  let (w, r1) ← readU32BE ihdr
  let (h, r2) ← readU32BE r1
  if r2 ≠ [8, 2, 0, 0, 0] then none else
  if w = 0 ∨ h = 0 then none else do
  let comp ← png_read_chunks (rest.length + 1) rest []
  let raw ← png_zlib_decode comp
  if raw.length = (w * 3 + 1) * h then do
    let pix ← ((List.range h).map (fun y =>
      (raw.drop (y * (w * 3 + 1))).take (w * 3 + 1))).mapM png_unfilter_row
    some (w, h, pix.flatten)
  else none

/-! ## Concrete inputs used by the witnesses and counterexamples -/

/-- A 16-byte table directory entry: tag, checksum 0, big-endian offset,
length 0. -/
def ttf_dir_entry (tag : List Nat) (off : Nat) : List Nat :=
  tag ++ [0, 0, 0, 0] ++ write_u32_be off ++ [0, 0, 0, 0]

/-- A font file whose cmap has a single subtable with platform 1 (Macintosh)
— no Unicode subtable.  Tables cmap/head/hhea/hmtx are all present. -/
def fontNoUnicode : List Nat :=
  [0, 1, 0, 0, 0, 4, 0, 0, 0, 0, 0, 0]
  ++ ttf_dir_entry [99, 109, 97, 112] 76    -- "cmap"
  ++ ttf_dir_entry [104, 101, 97, 100] 86   -- "head"
  ++ ttf_dir_entry [104, 104, 101, 97] 86   -- "hhea"
  ++ ttf_dir_entry [104, 109, 116, 120] 86  -- "hmtx"
  ++ [0, 0, 0, 1, 0, 1, 0, 0, 0, 0, 0, 12]

/-- The same font file with two cmap subtables: platform 1 first (skipped),
then platform 3 encoding 1 (the first Unicode match, at subtable offset 20). -/
def fontTwoSubtables : List Nat :=
  [0, 1, 0, 0, 0, 4, 0, 0, 0, 0, 0, 0]
  ++ ttf_dir_entry [99, 109, 97, 112] 76    -- "cmap"
  ++ ttf_dir_entry [104, 101, 97, 100] 86   -- "head"
  ++ ttf_dir_entry [104, 104, 101, 97] 86   -- "hhea"
  ++ ttf_dir_entry [104, 109, 116, 120] 86  -- "hmtx"
  ++ [0, 0, 0, 2, 0, 1, 0, 0, 0, 0, 0, 20, 0, 3, 0, 1, 0, 0, 0, 20]

/-- An all-zero font handle, the state before any `glyph_ttf_init` call. -/
def font0 : glyph_font_t :=
  ⟨[], 0, 0, 0, 0, 0, 0, 0, 0, 0, 0, 0, 0, FQ.ofInt 0⟩

/-- A cmap format-4 subtable (at `index_map = 0`) with one segment covering
codepoints 65–66, `idDelta = 0`, `idRangeOffset = 0`. -/
def fontFmt4 : glyph_font_t :=
  { font0 with data :=
      [0, 4, 0, 0, 0, 0, 0, 2, 0, 0, 0, 0, 0, 0,
       0, 66, 0, 0, 0, 65, 0, 0, 0, 0] }

/-- A font handle whose glyph 0 is a composite glyph
(`numberOfContours = -1` at glyf offset 10) and whose glyph 1 is empty
(equal adjacent loca entries). -/
def fontComposite : glyph_font_t :=
  { font0 with
    data := [0, 0, 0, 1, 0, 1, 0, 0, 0, 0, 255, 255]
    numGlyphs := 2
    glyf := 10 }

/-- A font handle for the spec's end-to-end scenario: `unitsPerEm = 1000`
(at head+18), one simple glyph at glyf offset 40 with one contour and
bounding box `(0,0)–(1000,1000)`. -/
def fontScale : glyph_font_t :=
  { font0 with
    data := List.replicate 18 0 ++ [3, 232]
      ++ List.replicate 10 0
      ++ [0, 0, 0, 10]
      ++ List.replicate 6 0
      ++ [0, 1, 0, 0, 0, 0, 3, 232, 3, 232]
    numGlyphs := 1
    loca := 30
    glyf := 40 }

/-- A 1×1 RGB image. -/
def img1x1 : glyph_image_t := ⟨1, 1, [10, 20, 30]⟩

/-- A 2×2 RGB image. -/
def img2x2 : glyph_image_t :=
  ⟨2, 2, [10, 20, 30, 40, 50, 60, 70, 80, 90, 100, 110, 120]⟩


/-! ## Named accessors for cmap format-4 segment fields and subtable headers
(direct transcriptions of the offset arithmetic in
`glyph_ttf_find_glyph_index` and `glyph_ttf_init`, used to state claims) -/

/-- `segcount` of the format-4 subtable at `font.index_map`. -/
def fmt4_segcount (font : glyph_font_t) : Nat :=
  glyph_ttf__get16u font.data (font.index_map + 6) / 2

/-- `endCode[i]` of the format-4 subtable. -/
def fmt4_endCode (font : glyph_font_t) (i : Nat) : Nat :=
  glyph_ttf__get16u font.data (font.index_map + 14 + (i : Int) * 2)

/-- `startCode[i]` of the format-4 subtable. -/
def fmt4_startCode (font : glyph_font_t) (i : Nat) : Nat :=
  glyph_ttf__get16u font.data
    (font.index_map + 14 + (fmt4_segcount font : Int) * 2 + 2 + (i : Int) * 2)

/-- `idDelta[i]` of the format-4 subtable (signed). -/
def fmt4_idDelta (font : glyph_font_t) (i : Nat) : Int :=
  glyph_ttf__get16 font.data
    (font.index_map + 14 + (fmt4_segcount font : Int) * 2 + 2
      + (fmt4_segcount font : Int) * 2 + (i : Int) * 2)

/-- `idRangeOffset[i]` of the format-4 subtable. -/
def fmt4_idRangeOffset (font : glyph_font_t) (i : Nat) : Nat :=
  glyph_ttf__get16u font.data
    (font.index_map + 14 + (fmt4_segcount font : Int) * 2 + 2
      + (fmt4_segcount font : Int) * 2 + (fmt4_segcount font : Int) * 2 + (i : Int) * 2)

/-- The subtable-selection predicate of the cmap scan in `glyph_ttf_init`:
platform 0, or platform 3 with encoding 1 or 10. -/
def cmap_subtable_match (d : List Nat) (cmap_offset : Int) (i : Nat) : Prop :=
  glyph_ttf__get16u d (cmap_offset + 4 + 8 * (i : Int)) = 0 ∨
  (glyph_ttf__get16u d (cmap_offset + 4 + 8 * (i : Int)) = 3 ∧
    (glyph_ttf__get16u d (cmap_offset + 4 + 8 * (i : Int) + 2) = 1 ∨
     glyph_ttf__get16u d (cmap_offset + 4 + 8 * (i : Int) + 2) = 10))

instance (d : List Nat) (co : Int) (i : Nat) : Decidable (cmap_subtable_match d co i) := by
  unfold cmap_subtable_match; infer_instance

/-- The loca-entry equality condition of the empty-glyph sentinel, as the
claims state it: the two adjacent loca entries (2-byte entries doubled, or
4-byte entries as-is, selected by `indexToLocFormat`) are equal. -/
def loca_entries_equal (font : glyph_font_t) (glyph_index : Int) : Prop :=
  (if font.indexToLocFormat ≠ 0 then
      glyph_ttf__get32 font.data (font.loca + glyph_index * 4)
    else (glyph_ttf__get16u font.data (font.loca + glyph_index * 2) : Int) * 2)
  = (if font.indexToLocFormat ≠ 0 then
      glyph_ttf__get32 font.data (font.loca + glyph_index * 4 + 4)
    else (glyph_ttf__get16u font.data (font.loca + glyph_index * 2 + 2) : Int) * 2)

instance (font : glyph_font_t) (gi : Int) : Decidable (loca_entries_equal font gi) := by
  unfold loca_entries_equal; infer_instance

/-! ## General list lemmas -/

theorem map_range_getD {α : Type} (g : Nat → α) (n i : Nat) (d : α) (hi : i < n) :
    ((List.range n).map g).getD i d = g i := by
  rw [List.getD_eq_getElem?_getD, List.getElem?_map, List.getElem?_range hi]
  rfl

theorem flatten_uniform_length (rows : List (List Nat)) (k : Nat)
    (hk : ∀ r ∈ rows, r.length = k) : rows.flatten.length = rows.length * k := by
  induction rows with
  | nil => simp
  | cons r rest ih =>
    simp only [List.flatten_cons, List.length_append, List.length_cons]
    rw [hk r (by simp), ih (fun r hr => hk r (by simp [hr]))]
    ring

theorem flatten_uniform_getD (rows : List (List Nat)) (k : Nat)
    (hk : ∀ r ∈ rows, r.length = k) :
    ∀ y j, y < rows.length → j < k →
      rows.flatten.getD (y * k + j) 0 = (rows.getD y []).getD j 0 := by
  induction rows with
  | nil => intro y j hy _; simp at hy
  | cons r rest ih =>
    intro y j hy hj
    match y with
    | 0 =>
      simp only [List.flatten_cons, Nat.zero_mul, Nat.zero_add]
      rw [List.getD_append _ _ _ _ (by rw [hk r (by simp)]; exact hj)]
      rfl
    | y' + 1 =>
      simp only [List.flatten_cons]
      rw [List.getD_append_right _ _ _ _
        (by rw [hk r (by simp)]; nlinarith [Nat.zero_le (y' * k)])]
      rw [hk r (by simp)]
      have : (y' + 1) * k + j - k = y' * k + j := by ring_nf; omega
      rw [this, ih (fun r hr => hk r (by simp [hr])) y' j (by simpa using hy) hj]
      rfl

theorem flatten_rows_take_drop (rows : List (List Nat)) (k : Nat)
    (hk : ∀ r ∈ rows, r.length = k) :
    ∀ y, y < rows.length → (rows.flatten.drop (y * k)).take k = rows.getD y [] := by
  induction rows with
  | nil => intro y hy; simp at hy
  | cons r rest ih =>
    intro y hy
    match y with
    | 0 =>
      simp only [List.flatten_cons, Nat.zero_mul, List.drop_zero]
      rw [List.take_left' (hk r (by simp))]
      rfl
    | y' + 1 =>
      simp only [List.flatten_cons]
      rw [show (y' + 1) * k = r.length + y' * k by rw [hk r (by simp)]; ring,
        List.drop_append, ih (fun r hr => hk r (by simp [hr])) y' (by simpa using hy)]
      rfl

theorem flatten_chunks (k : Nat) :
    ∀ (H : Nat) (l : List Nat), l.length = H * k →
      ((List.range H).map (fun y => (l.drop (y * k)).take k)).flatten = l := by
  intro H
  induction H with
  | zero => intro l hl; simp at hl; simp [hl]
  | succ n ih =>
    intro l hl
    rw [List.range_succ_eq_map]
    simp only [List.map_cons, List.map_map, List.flatten_cons, Nat.zero_mul,
      List.drop_zero]
    have hrest : ∀ y : Nat,
        (l.drop ((y + 1) * k)).take k = ((l.drop k).drop (y * k)).take k := by
      intro y
      rw [List.drop_drop, show k + y * k = (y + 1) * k by ring]
    have : ((List.range n).map (fun y => (l.drop ((y + 1) * k)).take k)).flatten
        = l.drop k := by
      rw [show ((List.range n).map (fun y => (l.drop ((y + 1) * k)).take k))
          = ((List.range n).map (fun y => ((l.drop k).drop (y * k)).take k)) from
        List.map_congr_left (fun y _ => hrest y)]
      exact ih (l.drop k) (by simp [hl]; ring_nf; omega)
    simpa [Function.comp_def, Nat.succ_eq_add_one] using
      (by rw [this, List.take_append_drop] :
        l.take k ++ ((List.range n).map
          (fun y => (l.drop ((y + 1) * k)).take k)).flatten = l)

theorem mapM_option_some {α β : Type} (f : α → Option β) (g : α → β) :
    ∀ l : List α, (∀ a ∈ l, f a = some (g a)) → l.mapM f = some (l.map g) := by
  intro l
  induction l with
  | nil => intro _; rfl
  | cons a rest ih =>
    intro h
    rw [List.mapM_cons, h a (by simp), ih (fun x hx => h x (by simp [hx]))]
    rfl

/-! ## The cmap format-4 segment scan -/

theorem fmt4_scan_not_covered (d : List Nat) (eC sC iD iRO cp : Int) :
    ∀ (rem i : Nat),
      (∀ k : Nat, k < rem →
        ¬ ((glyph_ttf__get16u d (sC + ((i + k : Nat) : Int) * 2) : Int) ≤ cp ∧
           cp ≤ (glyph_ttf__get16u d (eC + ((i + k : Nat) : Int) * 2) : Int))) →
      glyph_ttf__fmt4_scan d eC sC iD iRO cp i rem = 0 := by
  intro rem
  induction rem with
  | zero => intro i _; rfl
  | succ r ih =>
    intro i hno
    rw [glyph_ttf__fmt4_scan]
    by_cases hend : cp ≤ (glyph_ttf__get16u d (eC + (i : Int) * 2) : Int)
    · rw [if_pos hend]
      have h0 := hno 0 (by omega)
      simp only [Nat.add_zero] at h0
      rw [if_neg (by omega)]
      have := ih (i + 1) (fun k hk => by
        have := hno (k + 1) (by omega)
        simpa [Nat.add_assoc, Nat.add_comm 1 k] using this)
      exact this
    · rw [if_neg hend]
      exact ih (i + 1) (fun k hk => by
        have := hno (k + 1) (by omega)
        simpa [Nat.add_assoc, Nat.add_comm 1 k] using this)

theorem fmt4_scan_found (d : List Nat) (eC sC iD iRO cp : Int) :
    ∀ (rem i k : Nat), k < rem →
      (glyph_ttf__get16u d (sC + ((i + k : Nat) : Int) * 2) : Int) ≤ cp →
      cp ≤ (glyph_ttf__get16u d (eC + ((i + k : Nat) : Int) * 2) : Int) →
      glyph_ttf__get16u d (iRO + ((i + k : Nat) : Int) * 2) = 0 →
      (∀ j : Nat, j < k →
        (glyph_ttf__get16u d (eC + ((i + j : Nat) : Int) * 2) : Int) < cp) →
      glyph_ttf__fmt4_scan d eC sC iD iRO cp i rem
        = (cp + glyph_ttf__get16 d (iD + ((i + k : Nat) : Int) * 2)) % 65536 := by
  intro rem
  induction rem with
  | zero => intro i k hk; omega
  | succ r ih =>
    intro i k hk hs he hro hprev
    rw [glyph_ttf__fmt4_scan]
    match k with
    | 0 =>
      simp only [Nat.add_zero] at hs he hro ⊢
      rw [if_pos he, if_pos hs, if_pos hro]
    | k' + 1 =>
      have hlt := hprev 0 (by omega)
      simp only [Nat.add_zero] at hlt
      rw [if_neg (by omega)]
      have := ih (i + 1) k' (by omega)
        (by simpa [show i + 1 + k' = i + (k' + 1) by omega] using hs)
        (by simpa [show i + 1 + k' = i + (k' + 1) by omega] using he)
        (by simpa [show i + 1 + k' = i + (k' + 1) by omega] using hro)
        (fun j hj => by
          have := hprev (j + 1) (by omega)
          simpa [show i + 1 + j = i + (j + 1) by omega] using this)
      simpa [show i + 1 + k' = i + (k' + 1) by omega] using this

/-- C2: for a cmap format-4 subtable, a codepoint inside segment `i` whose
`idRangeOffset` is 0 (all earlier segments ending below it, as the ordered
end-code array guarantees) maps to `(codepoint + idDelta[i]) mod 65536`, and
a codepoint covered by no segment maps to glyph index 0. -/
theorem claim_C2_cmap_format4 (font : glyph_font_t) (cp : Int)
    (hfmt : glyph_ttf__get16u font.data font.index_map = 4) :
    (∀ i : Nat, i < fmt4_segcount font →
      (fmt4_startCode font i : Int) ≤ cp →
      cp ≤ (fmt4_endCode font i : Int) →
      fmt4_idRangeOffset font i = 0 →
      (∀ j : Nat, j < i → (fmt4_endCode font j : Int) < cp) →
      glyph_ttf_find_glyph_index font cp = (cp + fmt4_idDelta font i) % 65536)
    ∧ ((∀ i : Nat, i < fmt4_segcount font →
        ¬ ((fmt4_startCode font i : Int) ≤ cp ∧ cp ≤ (fmt4_endCode font i : Int))) →
      glyph_ttf_find_glyph_index font cp = 0) := by
  constructor
  · intro i hi hs he hro hprev
    simp only [glyph_ttf_find_glyph_index, hfmt]
    norm_num
    have := fmt4_scan_found font.data (font.index_map + 14)
      (font.index_map + 14 + (fmt4_segcount font : Int) * 2 + 2)
      (font.index_map + 14 + (fmt4_segcount font : Int) * 2 + 2
        + (fmt4_segcount font : Int) * 2)
      (font.index_map + 14 + (fmt4_segcount font : Int) * 2 + 2
        + (fmt4_segcount font : Int) * 2 + (fmt4_segcount font : Int) * 2)
      cp (fmt4_segcount font) 0 i hi
      (by simpa [fmt4_startCode] using hs)
      (by simpa [fmt4_endCode] using he)
      (by simpa [fmt4_idRangeOffset] using hro)
      (fun j hj => by simpa [fmt4_endCode] using hprev j hj)
    simp only [Nat.zero_add] at this
    simpa [fmt4_segcount, fmt4_idDelta] using this
  · intro hno
    simp only [glyph_ttf_find_glyph_index, hfmt]
    norm_num
    have := fmt4_scan_not_covered font.data (font.index_map + 14)
      (font.index_map + 14 + (fmt4_segcount font : Int) * 2 + 2)
      (font.index_map + 14 + (fmt4_segcount font : Int) * 2 + 2
        + (fmt4_segcount font : Int) * 2)
      (font.index_map + 14 + (fmt4_segcount font : Int) * 2 + 2
        + (fmt4_segcount font : Int) * 2 + (fmt4_segcount font : Int) * 2)
      cp (fmt4_segcount font) 0
      (fun k hk => by
        have := hno k hk
        simpa [fmt4_startCode, fmt4_endCode] using this)
    simpa [fmt4_segcount] using this

/-- C2 witness: the spec's end-to-end scenario — one segment covering
codepoints 65–66 with `idDelta = 0`, `idRangeOffset = 0`: codepoint 65 maps
to glyph index 65, codepoint 67 maps to glyph index 0. -/
theorem claim_C2_cmap_format4_witness :
    glyph_ttf_find_glyph_index fontFmt4 65 = 65 ∧
    glyph_ttf_find_glyph_index fontFmt4 67 = 0 := by
  constructor
  · have h := (claim_C2_cmap_format4 fontFmt4 65 (by decide)).1 0 (by decide)
      (by decide) (by decide) (by decide) (fun j hj => by omega)
    rw [h]; decide
  · exact (claim_C2_cmap_format4 fontFmt4 67 (by decide)).2
      (fun i hi => by
        have : i = 0 := by
          have : fmt4_segcount fontFmt4 = 1 := by decide
          omega
        subst this
        decide)

/-- C3 counterexample: `glyph_ttf_init` on a buffer with an invalid
signature fails, yet the handle is not left unchanged — `data` and
`fontstart` were already overwritten before the signature check. -/
theorem claim_C3_counterexample :
    (glyph_ttf_init font0 [9, 9, 9, 9] 0).1 = false ∧
    (glyph_ttf_init font0 [9, 9, 9, 9] 0).2 ≠ font0 ∧
    (glyph_ttf_init font0 [9, 9, 9, 9] 0).2.data = [9, 9, 9, 9] := by
  refine ⟨by decide, ?_, by decide⟩
  intro h
  have : (glyph_ttf_init font0 [9, 9, 9, 9] 0).2.data = font0.data := by rw [h]
  simp [font0] at this
  exact absurd this (by decide)

/-- C3 (amended): `glyph_ttf_init` fails (returns 0) whenever the 4-byte
signature is none of the four accepted forms, whenever any of the cmap,
head, hhea, hmtx tables is absent, and whenever glyf is present but loca is
absent; on every call — including every failure path — the handle's `data`
and `fontstart` fields are overwritten with the arguments (so the fields
are not left unchanged; only the returned flag marks the failure). -/
theorem claim_C3_init_failure_paths (font : glyph_font_t) (data : List Nat)
    (offset : Int) :
    ((glyph_ttf_init font data offset).2.data = data ∧
     (glyph_ttf_init font data offset).2.fontstart = offset)
    ∧ (glyph_ttf__isfont data offset = false →
        (glyph_ttf_init font data offset).1 = false)
    ∧ (glyph_ttf__find_table data offset 99 109 97 112 = 0 →
        (glyph_ttf_init font data offset).1 = false)
    ∧ (glyph_ttf__find_table data offset 104 101 97 100 = 0 →
        (glyph_ttf_init font data offset).1 = false)
    ∧ (glyph_ttf__find_table data offset 104 104 101 97 = 0 →
        (glyph_ttf_init font data offset).1 = false)
    ∧ (glyph_ttf__find_table data offset 104 109 116 120 = 0 →
        (glyph_ttf_init font data offset).1 = false)
    ∧ (glyph_ttf__find_table data offset 103 108 121 102 ≠ 0 →
        glyph_ttf__find_table data offset 108 111 99 97 = 0 →
        (glyph_ttf_init font data offset).1 = false) := by
  refine ⟨?_, ?_, ?_, ?_, ?_, ?_, ?_⟩
  · constructor <;>
    · simp [glyph_ttf_init]
      split
      · rfl
      · split
        · rfl
        · split
          · rfl
          · split
            · rfl
            · rfl
  · intro h
    simp [glyph_ttf_init, h]
  · intro h
    by_cases hf : glyph_ttf__isfont data offset
    · simp [glyph_ttf_init, hf, h]
    · simp [glyph_ttf_init, hf]
  · intro h
    by_cases hf : glyph_ttf__isfont data offset
    · simp [glyph_ttf_init, hf, h]
    · simp [glyph_ttf_init, hf]
  · intro h
    by_cases hf : glyph_ttf__isfont data offset
    · simp [glyph_ttf_init, hf, h]
    · simp [glyph_ttf_init, hf]
  · intro h
    by_cases hf : glyph_ttf__isfont data offset
    · simp [glyph_ttf_init, hf, h]
    · simp [glyph_ttf_init, hf]
  · intro hglyf hloca
    by_cases hf : glyph_ttf__isfont data offset
    · by_cases hc : glyph_ttf__find_table data offset 99 109 97 112 = 0 ∨
        glyph_ttf__find_table data offset 104 101 97 100 = 0 ∨
        glyph_ttf__find_table data offset 104 104 101 97 = 0 ∨
        glyph_ttf__find_table data offset 104 109 116 120 = 0
      · simp [glyph_ttf_init, hf]
        rw [if_pos hc]
      · simp [glyph_ttf_init, hf]
        rw [if_neg hc, if_pos ⟨hglyf, hloca⟩]
    · simp [glyph_ttf_init, hf]

/-- C3 witness: a concrete failing buffer — init returns false while the
handle's data field now holds the buffer. -/
theorem claim_C3_init_failure_paths_witness :
    (glyph_ttf_init font0 [9, 9, 9, 9] 0).1 = false ∧
    (glyph_ttf_init font0 [9, 9, 9, 9] 0).2.data = [9, 9, 9, 9] := by
  exact ⟨(claim_C3_init_failure_paths font0 [9, 9, 9, 9] 0).2.1 (by decide),
    (claim_C3_init_failure_paths font0 [9, 9, 9, 9] 0).1.1⟩

/-! ## Empty-glyph sentinel and blank-bitmap lemmas -/

theorem get_glyph_offset_of_equal_entries (font : glyph_font_t) (gi : Int)
    (heq : loca_entries_equal font gi) :
    glyph_ttf__get_glyph_offset font gi = -1 := by
  unfold glyph_ttf__get_glyph_offset loca_entries_equal at *
  by_cases hfmt : font.indexToLocFormat ≠ 0
  · simp only [if_pos hfmt] at heq ⊢
    rw [if_pos (by omega : font.glyf + glyph_ttf__get32 font.data (font.loca + gi * 4)
      = font.glyf + glyph_ttf__get32 font.data (font.loca + gi * 4 + 4))]
  · simp only [if_neg hfmt] at heq ⊢
    rw [if_pos (by omega : font.glyf + (glyph_ttf__get16u font.data (font.loca + gi * 2) : Int) * 2
      = font.glyf + (glyph_ttf__get16u font.data (font.loca + gi * 2 + 2) : Int) * 2)]

theorem get_glyph_bitmap_blank_of_neg_offset (font : glyph_font_t) (gi : Int)
    (sx sy : FQ) (hneg : glyph_ttf__get_glyph_offset font gi < 0) :
    glyph_ttf_get_glyph_bitmap font gi sx sy = ⟨none, 0, 0, 0, 0⟩ := by
  unfold glyph_ttf_get_glyph_bitmap
  simp [hneg]

/-- C4 counterexample: glyph 0 of `fontComposite` is a composite glyph
(`numberOfContours = -1`), yet `glyph_ttf_get_glyph_bitmap` returns the
blank `(NULL, 0, 0, 0, 0)` result — the very same value it returns for the
empty glyph 1, so no distinct `UnsupportedGlyphFormat` condition is
surfaced. -/
theorem claim_C4_counterexample :
    glyph_ttf__get16 fontComposite.data (glyph_ttf__get_glyph_offset fontComposite 0) = -1
    ∧ glyph_ttf_get_glyph_bitmap fontComposite 0 (FQ.ofInt 1) (FQ.ofInt 1)
        = ⟨none, 0, 0, 0, 0⟩
    ∧ glyph_ttf_get_glyph_bitmap fontComposite 0 (FQ.ofInt 1) (FQ.ofInt 1)
        = glyph_ttf_get_glyph_bitmap fontComposite 1 (FQ.ofInt 1) (FQ.ofInt 1) := by
  refine ⟨by decide, ?_, ?_⟩ <;> decide

/-- C4 (amended): for every glyph whose glyf data has a negative
`numberOfContours` (composite glyph), the decoder does NOT surface a
distinct condition: it silently returns the blank `(NULL, 0, 0, 0, 0)`
result, indistinguishable from the empty-glyph outcome. -/
theorem claim_C4_composite_blank (font : glyph_font_t) (gi : Int) (sx sy : FQ)
    (hoff : 0 ≤ glyph_ttf__get_glyph_offset font gi)
    (hcomp : glyph_ttf__get16 font.data (glyph_ttf__get_glyph_offset font gi) < 0) :
    glyph_ttf_get_glyph_bitmap font gi sx sy = ⟨none, 0, 0, 0, 0⟩ := by
  unfold glyph_ttf_get_glyph_bitmap
  rw [if_neg (by omega)]
  dsimp only
  rw [if_neg (by omega)]

/-- C4 witness: the composite glyph of `fontComposite`. -/
theorem claim_C4_composite_blank_witness :
    glyph_ttf_get_glyph_bitmap fontComposite 0 (FQ.ofInt 1) (FQ.ofInt 1)
      = ⟨none, 0, 0, 0, 0⟩ :=
  claim_C4_composite_blank fontComposite 0 (FQ.ofInt 1) (FQ.ofInt 1)
    (by decide) (by decide)

/-! ## The cmap subtable scan of `glyph_ttf_init` -/

theorem cmap_scan_no_match (d : List Nat) (co : Int) :
    ∀ (rem i : Nat),
      (∀ k : Nat, k < rem → ¬ cmap_subtable_match d co (i + k)) →
      glyph_ttf__cmap_scan d co i rem = 0 := by
  intro rem
  induction rem with
  | zero => intro i _; rfl
  | succ r ih =>
    intro i hno
    rw [glyph_ttf__cmap_scan]
    have h0 := hno 0 (by omega)
    simp only [Nat.add_zero] at h0
    rw [if_neg (by unfold cmap_subtable_match at h0; exact h0)]
    exact ih (i + 1) (fun k hk => by
      have := hno (k + 1) (by omega)
      simpa [Nat.add_assoc, Nat.add_comm 1 k] using this)

theorem cmap_scan_first_match (d : List Nat) (co : Int) :
    ∀ (rem i k : Nat), k < rem →
      cmap_subtable_match d co (i + k) →
      (∀ j : Nat, j < k → ¬ cmap_subtable_match d co (i + j)) →
      glyph_ttf__cmap_scan d co i rem
        = co + glyph_ttf__get32 d (co + 4 + 8 * ((i + k : Nat) : Int) + 4) := by
  intro rem
  induction rem with
  | zero => intro i k hk; omega
  | succ r ih =>
    intro i k hk hm hprev
    rw [glyph_ttf__cmap_scan]
    match k with
    | 0 =>
      simp only [Nat.add_zero] at hm ⊢
      rw [if_pos (by unfold cmap_subtable_match at hm; exact hm)]
    | k' + 1 =>
      have hn0 := hprev 0 (by omega)
      simp only [Nat.add_zero] at hn0
      rw [if_neg (by unfold cmap_subtable_match at hn0; exact hn0)]
      have := ih (i + 1) k' (by omega)
        (by simpa [show i + 1 + k' = i + (k' + 1) by omega] using hm)
        (fun j hj => by
          have := hprev (j + 1) (by omega)
          simpa [show i + 1 + j = i + (j + 1) by omega] using this)
      simpa [show i + 1 + k' = i + (k' + 1) by omega] using this

/-- C5 counterexample: `fontNoUnicode` has a valid signature and all four
required tables, but its cmap holds no Unicode subtable — and
`glyph_ttf_init` then FAILS (returns 0): the font load does not succeed, so
the font is not "otherwise usable by raw glyph index". -/
theorem claim_C5_counterexample :
    glyph_ttf__isfont fontNoUnicode 0 = true
    ∧ glyph_ttf__find_table fontNoUnicode 0 99 109 97 112 ≠ 0
    ∧ glyph_ttf__find_table fontNoUnicode 0 104 101 97 100 ≠ 0
    ∧ glyph_ttf__find_table fontNoUnicode 0 104 104 101 97 ≠ 0
    ∧ glyph_ttf__find_table fontNoUnicode 0 104 109 116 120 ≠ 0
    ∧ (glyph_ttf_init font0 fontNoUnicode 0).1 = false := by
  refine ⟨by decide, by decide, by decide, by decide, by decide, by decide⟩

/-- C5 (amended): when no cmap subtable matches (platform 0, or platform 3
with encoding 1 or 10), `glyph_ttf_init` fails outright — the absence is
fatal to the whole font load, not merely to codepoint mapping.  When a
match exists, the first match in directory order is selected with no
re-ranking (`index_map = cmap_offset + offset_sub` of that subtable). -/
theorem claim_C5_no_unicode_cmap :
    (∀ (font : glyph_font_t) (data : List Nat) (offset : Int),
      (∀ i : Nat,
        i < glyph_ttf__get16u data (glyph_ttf__find_table data offset 99 109 97 112 + 2) →
        ¬ cmap_subtable_match data (glyph_ttf__find_table data offset 99 109 97 112) i) →
      (glyph_ttf_init font data offset).1 = false)
    ∧ (∀ (d : List Nat) (co : Int) (n i : Nat), i < n →
        cmap_subtable_match d co i →
        (∀ j : Nat, j < i → ¬ cmap_subtable_match d co j) →
        glyph_ttf__cmap_scan d co 0 n
          = co + glyph_ttf__get32 d (co + 4 + 8 * (i : Int) + 4)) := by
  constructor
  · intro font data offset hno
    by_cases hf : glyph_ttf__isfont data offset
    · by_cases hc : glyph_ttf__find_table data offset 99 109 97 112 = 0 ∨
        glyph_ttf__find_table data offset 104 101 97 100 = 0 ∨
        glyph_ttf__find_table data offset 104 104 101 97 = 0 ∨
        glyph_ttf__find_table data offset 104 109 116 120 = 0
      · simp [glyph_ttf_init, hf]
        rw [if_pos hc]
      · by_cases hg : glyph_ttf__find_table data offset 103 108 121 102 ≠ 0 ∧
          glyph_ttf__find_table data offset 108 111 99 97 = 0
        · simp [glyph_ttf_init, hf]
          rw [if_neg hc, if_pos hg]
        · simp [glyph_ttf_init, hf]
          rw [if_neg hc, if_neg hg,
            if_pos (cmap_scan_no_match data _ _ 0 (fun k hk => by
              simpa using hno k hk))]
    · simp [glyph_ttf_init, hf]
  · intro d co n i hi hm hprev
    have := cmap_scan_first_match d co n 0 i hi (by simpa using hm)
      (fun j hj => by simpa using hprev j hj)
    simpa using this

/-- C5 witness: `fontNoUnicode` fails to load; in `fontTwoSubtables` the
first matching subtable (the second record, platform 3 encoding 1, at
subtable offset 20) is selected: `index_map = 76 + 20 = 96`. -/
theorem claim_C5_no_unicode_cmap_witness :
    (glyph_ttf_init font0 fontNoUnicode 0).1 = false
    ∧ glyph_ttf__cmap_scan fontTwoSubtables 76 0 2 = 96 := by
  constructor
  · exact claim_C5_no_unicode_cmap.1 font0 fontNoUnicode 0 (by decide)
  · have h := claim_C5_no_unicode_cmap.2 fontTwoSubtables 76 2 1 (by omega)
      (by decide) (fun j hj => by
        have hj0 : j = 0 := by omega
        subst hj0; decide)
    rw [h]; decide

/-- C6: equal adjacent loca entries (2-byte doubled or 4-byte as-is, by
`indexToLocFormat`) make `glyph_ttf__get_glyph_offset` return the `-1`
empty-glyph sentinel — not an error — and the requested bitmap is the
zero-sized blank result. -/
theorem claim_C6_empty_glyph (font : glyph_font_t) (gi : Int) (sx sy : FQ)
    (heq : loca_entries_equal font gi) :
    glyph_ttf__get_glyph_offset font gi = -1
    ∧ glyph_ttf_get_glyph_bitmap font gi sx sy = ⟨none, 0, 0, 0, 0⟩ := by
  have h := get_glyph_offset_of_equal_entries font gi heq
  exact ⟨h, get_glyph_bitmap_blank_of_neg_offset font gi sx sy (by omega)⟩

/-- C6 witness: glyph 1 of `fontComposite` has equal loca entries. -/
theorem claim_C6_empty_glyph_witness :
    glyph_ttf__get_glyph_offset fontComposite 1 = -1
    ∧ glyph_ttf_get_glyph_bitmap fontComposite 1 (FQ.ofInt 1) (FQ.ofInt 1)
        = ⟨none, 0, 0, 0, 0⟩ :=
  claim_C6_empty_glyph fontComposite 1 (FQ.ofInt 1) (FQ.ofInt 1) (by decide)

/-- C10: an out-of-range glyph index (`glyph_index ≥ numGlyphs`) and an
empty glyph (equal adjacent loca entries) both make
`glyph_ttf_get_glyph_bbox` write 0 into all four bounding-box fields
instead of reading glyf header fields. -/
theorem claim_C10_bbox_zero (font : glyph_font_t) (gi : Int) :
    (font.numGlyphs ≤ gi → glyph_ttf_get_glyph_bbox font gi = ⟨0, 0, 0, 0⟩)
    ∧ (loca_entries_equal font gi → glyph_ttf_get_glyph_bbox font gi = ⟨0, 0, 0, 0⟩) := by
  constructor
  · intro h
    unfold glyph_ttf_get_glyph_bbox
    rw [if_pos h]
  · intro h
    unfold glyph_ttf_get_glyph_bbox
    by_cases hn : font.numGlyphs ≤ gi
    · rw [if_pos hn]
    · rw [if_neg hn]
      simp [get_glyph_offset_of_equal_entries font gi h]

/-- C10 witness: glyph index 5 ≥ numGlyphs = 2, and the empty glyph 1, of
`fontComposite`. -/
theorem claim_C10_bbox_zero_witness :
    glyph_ttf_get_glyph_bbox fontComposite 5 = ⟨0, 0, 0, 0⟩
    ∧ glyph_ttf_get_glyph_bbox fontComposite 1 = ⟨0, 0, 0, 0⟩ :=
  ⟨(claim_C10_bbox_zero fontComposite 5).1 (by decide),
   (claim_C10_bbox_zero fontComposite 1).2 (by decide)⟩

/-- C8: the scale factor for a requested pixel height is
`pixels / unitsPerEm` (the head-table field at offset 18), and a rasterized
simple glyph's bitmap width and height are
`ceil((xMax-xMin)*scale_x)+1` and `ceil((yMax-yMin)*scale_y)+1`. -/
theorem claim_C8_scale_and_size (font : glyph_font_t) (pixels sx sy : FQ)
    (gi : Int) :
    glyph_ttf_scale_for_pixel_height font pixels
      = FQ.div pixels (FQ.ofNat (glyph_ttf__get16u font.data (font.head + 18)))
    ∧ (0 ≤ glyph_ttf__get_glyph_offset font gi →
       0 < glyph_ttf__get16 font.data (glyph_ttf__get_glyph_offset font gi) →
       0 < FQ.ceil (FQ.mul (FQ.ofInt
             (glyph_ttf__get16 font.data (glyph_ttf__get_glyph_offset font gi + 6)
              - glyph_ttf__get16 font.data (glyph_ttf__get_glyph_offset font gi + 2))) sx) + 1 →
       0 < FQ.ceil (FQ.mul (FQ.ofInt
             (glyph_ttf__get16 font.data (glyph_ttf__get_glyph_offset font gi + 8)
              - glyph_ttf__get16 font.data (glyph_ttf__get_glyph_offset font gi + 4))) sy) + 1 →
       (glyph_ttf_get_glyph_bitmap font gi sx sy).width
           = FQ.ceil (FQ.mul (FQ.ofInt
               (glyph_ttf__get16 font.data (glyph_ttf__get_glyph_offset font gi + 6)
                - glyph_ttf__get16 font.data (glyph_ttf__get_glyph_offset font gi + 2))) sx) + 1
         ∧ (glyph_ttf_get_glyph_bitmap font gi sx sy).height
           = FQ.ceil (FQ.mul (FQ.ofInt
               (glyph_ttf__get16 font.data (glyph_ttf__get_glyph_offset font gi + 8)
                - glyph_ttf__get16 font.data (glyph_ttf__get_glyph_offset font gi + 4))) sy) + 1) := by
  constructor
  · rfl
  · intro h0 hc hw hh
    have hng : ¬ glyph_ttf__get_glyph_offset font gi < 0 := by omega
    simp [glyph_ttf_get_glyph_bitmap, if_neg hng, if_pos hc, if_neg (by omega :
      ¬ (FQ.ceil (FQ.mul (FQ.ofInt
           (glyph_ttf__get16 font.data (glyph_ttf__get_glyph_offset font gi + 6)
            - glyph_ttf__get16 font.data (glyph_ttf__get_glyph_offset font gi + 2))) sx) + 1 ≤ 0
         ∨ FQ.ceil (FQ.mul (FQ.ofInt
           (glyph_ttf__get16 font.data (glyph_ttf__get_glyph_offset font gi + 8)
            - glyph_ttf__get16 font.data (glyph_ttf__get_glyph_offset font gi + 4))) sy) + 1 ≤ 0))]

/-- C8 witness: the spec's end-to-end scenario — `unitsPerEm = 1000`, pixel
height 16 gives scale `16/1000` (= 0.016), and the glyph with bounding box
(0,0)–(1000,1000) rasterizes to a 17×17 bitmap. -/
theorem claim_C8_scale_and_size_witness :
    glyph_ttf_scale_for_pixel_height fontScale (FQ.ofInt 16) = FQ.mk' 16 1000
    ∧ (glyph_ttf_get_glyph_bitmap fontScale 0 (FQ.mk' 16 1000) (FQ.mk' 16 1000)).width = 17
    ∧ (glyph_ttf_get_glyph_bitmap fontScale 0 (FQ.mk' 16 1000) (FQ.mk' 16 1000)).height = 17 := by
  have h := claim_C8_scale_and_size fontScale (FQ.ofInt 16) (FQ.mk' 16 1000)
    (FQ.mk' 16 1000) 0
  have h2 := h.2 (by decide) (by decide) (by decide) (by decide)
  refine ⟨?_, ?_, ?_⟩
  · rw [h.1]; decide
  · rw [h2.1]; decide
  · rw [h2.2]; decide

/-! ## SDF remap endpoints -/

theorem sdf_remap_at_neg_spread (s : Int) (hs : 0 < s) :
    glyph_ttf__sdf_remap s (FQ.ofInt (-s)) = 0 := by
  unfold glyph_ttf__sdf_remap FQ.div FQ.add FQ.mul FQ.trunc FQ.ofInt FQ.mk'
  simp only []
  rw [if_neg (by simpa using hs.ne'), if_pos (by simpa using hs)]
  simp only []
  rw [show ((-s * 1) * 1 + 1 * (1 * s)) * 1 * 255 = 0 by ring]
  simp [Int.zero_tdiv]

theorem sdf_remap_at_pos_spread (s : Int) (hs : 0 < s) :
    glyph_ttf__sdf_remap s (FQ.ofInt s) = 255 := by
  unfold glyph_ttf__sdf_remap FQ.div FQ.add FQ.mul FQ.trunc FQ.ofInt FQ.mk'
  simp only []
  rw [if_neg (by simpa using hs.ne'), if_pos (by simpa using hs)]
  simp only []
  rw [show (s * 1 * 1 + 1 * (1 * s)) * 1 * 255 = 255 * (1 * s * 1 * 2 * 1) by ring]
  rw [Int.mul_tdiv_cancel _ (by simp; omega)]
  rfl

theorem sdf_remap_at_zero (s : Int) (hs : 0 < s) :
    glyph_ttf__sdf_remap s (FQ.ofInt 0) = 127 := by
  unfold glyph_ttf__sdf_remap FQ.div FQ.add FQ.mul FQ.trunc FQ.ofInt FQ.mk'
  simp only []
  rw [if_neg (by simpa using hs.ne'), if_pos (by simpa using hs)]
  simp only []
  rw [show (0 * 1 * 1 + 1 * (1 * s)) * 1 * 255 = 255 * s by ring,
    show 1 * s * 1 * 2 * 1 = 2 * s by ring]
  rw [Int.tdiv_eq_ediv (by positivity) (by positivity)]
  rw [show (255 : Int) * s = s + 127 * (2 * s) by ring]
  rw [Int.add_mul_ediv_right _ _ (by positivity)]
  rw [Int.ediv_eq_zero_of_lt (le_of_lt hs) (by omega)]
  rfl

/-- C7: each SDF pixel is the signed distance (`-dt0` inside, `+dt1`
outside) clamped to `[-spread, spread]` and linearly remapped, and the
remap sends clamped distance `-spread` to 0, `+spread` to 255, and 0 to 127
(the truncation of 127.5). -/
theorem claim_C7_sdf_remap (bitmap : List Nat) (w h : Nat) (spread : Int)
    (hs : 0 < spread) (i : Nat) (hi : i < w * h) :
    (glyph_ttf_get_glyph_sdf_bitmap bitmap w h spread).getD i 0
      = glyph_ttf__sdf_remap spread
          (glyph_ttf__sdf_clamp spread (glyph_ttf__sdf_rawdist bitmap w h i))
    ∧ (glyph_ttf__sdf_clamp spread (glyph_ttf__sdf_rawdist bitmap w h i)
          = FQ.ofInt (-spread) →
        (glyph_ttf_get_glyph_sdf_bitmap bitmap w h spread).getD i 0 = 0)
    ∧ (glyph_ttf__sdf_clamp spread (glyph_ttf__sdf_rawdist bitmap w h i)
          = FQ.ofInt spread →
        (glyph_ttf_get_glyph_sdf_bitmap bitmap w h spread).getD i 0 = 255)
    ∧ (glyph_ttf__sdf_clamp spread (glyph_ttf__sdf_rawdist bitmap w h i)
          = FQ.ofInt 0 →
        (glyph_ttf_get_glyph_sdf_bitmap bitmap w h spread).getD i 0 = 127) := by
  have h1 : (glyph_ttf_get_glyph_sdf_bitmap bitmap w h spread).getD i 0
      = glyph_ttf__sdf_remap spread
          (glyph_ttf__sdf_clamp spread (glyph_ttf__sdf_rawdist bitmap w h i)) := by
    unfold glyph_ttf_get_glyph_sdf_bitmap
    exact map_range_getD _ _ _ _ hi
  refine ⟨h1, ?_, ?_, ?_⟩
  · intro hd
    rw [h1, hd]
    exact sdf_remap_at_neg_spread spread hs
  · intro hd
    rw [h1, hd]
    exact sdf_remap_at_pos_spread spread hs
  · intro hd
    rw [h1, hd]
    exact sdf_remap_at_zero spread hs

/-- C7 witness: a fully-inside 1×1 bitmap clamps to `-spread` and maps to
0; a fully-outside 1×1 bitmap clamps to `+spread` and maps to 255. -/
theorem claim_C7_sdf_remap_witness :
    (glyph_ttf_get_glyph_sdf_bitmap [255] 1 1 2).getD 0 0 = 0
    ∧ (glyph_ttf_get_glyph_sdf_bitmap [0] 1 1 2).getD 0 0 = 255 :=
  ⟨(claim_C7_sdf_remap [255] 1 1 2 (by decide) 0 (by decide)).2.1 (by decide),
   (claim_C7_sdf_remap [0] 1 1 2 (by decide) 0 (by decide)).2.2.1 (by decide)⟩

/-! ## BMP row layout -/

theorem bmp_row_pix_length (img : glyph_image_t) (y : Nat) :
    (((List.range img.width).map (fun x =>
      [img.data.getD ((y * img.width + x) * 3 + 2) 0,
       img.data.getD ((y * img.width + x) * 3 + 1) 0,
       img.data.getD ((y * img.width + x) * 3 + 0) 0])).flatten).length
    = img.width * 3 := by
  rw [flatten_uniform_length _ 3 (fun r hr => by
    rcases List.mem_map.mp hr with ⟨x, _, rfl⟩; rfl)]
  simp

theorem reverse_range_map_getD {α : Type} (f : Nat → α) (n r : Nat) (d : α)
    (hr : r < n) :
    ((List.range n).reverse.map f).getD r d = f (n - 1 - r) := by
  rw [List.getD_eq_getElem?_getD, List.getElem?_map,
    List.getElem?_reverse (by simpa using hr)]
  simp [List.getElem?_range (show n - 1 - r < n by omega)]

/-- C9: every BMP pixel row has byte size `((W*3+3)/4)*4`, always a multiple
of 4, and the rows are written bottom-to-top in BGR order: byte `3x+c` of
the row block at `54 + (H-1-y)*row_size` is channel `2-c` of pixel `(x,y)`. -/
theorem claim_C9_bmp_rows (img : glyph_image_t) :
    (∀ y : Nat, (glyph_bmp_row img y).length = glyph_bmp_row_size img)
    ∧ glyph_bmp_row_size img = (img.width * 3 + 3) / 4 * 4
    ∧ glyph_bmp_row_size img % 4 = 0
    ∧ (∀ y x c : Nat, y < img.height → x < img.width → c < 3 →
        (glyph_write_bmp_bytes img).getD
            (54 + (img.height - 1 - y) * glyph_bmp_row_size img + (3 * x + c)) 0
          = img.data.getD ((y * img.width + x) * 3 + (2 - c)) 0) := by
  have hrow : ∀ y : Nat, (glyph_bmp_row img y).length = glyph_bmp_row_size img := by
    intro y
    unfold glyph_bmp_row glyph_bmp_row_size
    rw [List.length_append, bmp_row_pix_length]
    simp only [List.length_replicate]
    omega
  have hrs3 : img.width * 3 ≤ glyph_bmp_row_size img := by
    unfold glyph_bmp_row_size; omega
  refine ⟨hrow, rfl, by unfold glyph_bmp_row_size; omega, ?_⟩
  intro y x c hy hx hc
  have hfh : (glyph_bmp_fileheader img).length = 14 := rfl
  have hih : (glyph_bmp_infoheader img).length = 40 := rfl
  unfold glyph_write_bmp_bytes
  rw [List.getD_append_right _ _ _ _
    (by rw [List.length_append, hfh, hih]; omega)]
  rw [List.length_append, hfh, hih]
  rw [show 54 + (img.height - 1 - y) * glyph_bmp_row_size img + (3 * x + c) - (14 + 40)
      = (img.height - 1 - y) * glyph_bmp_row_size img + (3 * x + c) by omega]
  rw [flatten_uniform_getD _ (glyph_bmp_row_size img)
    (fun r hr => by
      rcases List.mem_map.mp hr with ⟨y', _, rfl⟩
      exact hrow y')
    (img.height - 1 - y) (3 * x + c) (by simp; omega) (by omega)]
  rw [reverse_range_map_getD _ _ _ _ (by omega)]
  rw [show img.height - 1 - (img.height - 1 - y) = y by omega]
  unfold glyph_bmp_row
  rw [List.getD_append _ _ _ _ (by rw [bmp_row_pix_length]; omega)]
  rw [show 3 * x + c = x * 3 + c by ring]
  rw [flatten_uniform_getD _ 3
    (fun r hr => by rcases List.mem_map.mp hr with ⟨x', _, rfl⟩; rfl)
    x c (by simpa using hx) hc]
  rw [map_range_getD _ _ _ _ hx]
  interval_cases c <;> rfl

/-- C9 witness: the 2×2 image — row length 8 (a multiple of 4), and the
first byte of the bottom row block is the blue channel of pixel (0,0). -/
theorem claim_C9_bmp_rows_witness :
    (glyph_bmp_row img2x2 0).length = glyph_bmp_row_size img2x2
    ∧ glyph_bmp_row_size img2x2 % 4 = 0
    ∧ (glyph_write_bmp_bytes img2x2).getD (54 + 1 * glyph_bmp_row_size img2x2 + 0) 0
        = img2x2.data.getD 2 0 := by
  refine ⟨(claim_C9_bmp_rows img2x2).1 0, (claim_C9_bmp_rows img2x2).2.2.1, ?_⟩
  have h := (claim_C9_bmp_rows img2x2).2.2.2 0 0 0 (by decide) (by decide) (by decide)
  simpa using h

/-! ## PNG writer/decoder correspondence -/

theorem crc32_table_entry_lt (n : Nat) (h : n < 4294967296) :
    crc32_table_entry n < 4294967296 := by
  unfold crc32_table_entry
  have step : ∀ (l : List Unit) (a : Nat), a < 4294967296 →
      (l.foldl (fun crc _ =>
        if crc % 2 = 1 then (crc / 2) ^^^ 0xEDB88320 else crc / 2) a) < 4294967296 := by
    intro l
    induction l with
    | nil => intro a ha; exact ha
    | cons _ rest ih =>
      intro a ha
      refine ih _ ?_
      dsimp only
      split
      · rw [show (4294967296 : Nat) = 2 ^ 32 by norm_num] at ha ⊢
        exact Nat.xor_lt_two_pow (by omega) (by norm_num)
      · omega
  have : (List.range 8).foldl (fun crc _ =>
      if crc % 2 = 1 then (crc / 2) ^^^ 0xEDB88320 else crc / 2) n
      = ((List.range 8).map (fun _ => ())).foldl (fun crc _ =>
        if crc % 2 = 1 then (crc / 2) ^^^ 0xEDB88320 else crc / 2) n := by
    rw [List.foldl_map]
  rw [this]
  exact step _ n h

theorem crc32_lt (l : List Nat) : crc32 l < 4294967296 := by
  unfold crc32
  have inv : ∀ (d : List Nat) (a : Nat), a < 4294967296 →
      (d.foldl (fun crc b =>
        (crc / 256) ^^^ crc32_table_entry ((crc ^^^ b) % 256)) a) < 4294967296 := by
    intro d
    induction d with
    | nil => intro a ha; exact ha
    | cons b rest ih =>
      intro a ha
      refine ih _ ?_
      rw [show (4294967296 : Nat) = 2 ^ 32 by norm_num]
      exact Nat.xor_lt_two_pow (by omega)
        (by
          rw [show (2 : Nat) ^ 32 = 4294967296 by norm_num]
          exact crc32_table_entry_lt _ (by omega))
  rw [show (4294967296 : Nat) = 2 ^ 32 by norm_num]
  exact Nat.xor_lt_two_pow
    (by
      rw [show (2 : Nat) ^ 32 = 4294967296 by norm_num]
      exact inv l _ (by norm_num))
    (by norm_num)

theorem adler32_lt (l : List Nat) : adler32 l < 4294967296 := by
  unfold adler32
  have inv : ∀ (d : List Nat) (s : Nat × Nat), s.1 < 65521 → s.2 < 65521 →
      ((d.foldl (fun (s : Nat × Nat) byte =>
        ((s.1 + byte) % 65521, (s.2 + (s.1 + byte) % 65521) % 65521)) s).1 < 65521 ∧
       (d.foldl (fun (s : Nat × Nat) byte =>
        ((s.1 + byte) % 65521, (s.2 + (s.1 + byte) % 65521) % 65521)) s).2 < 65521) := by
    intro d
    induction d with
    | nil => intro s h1 h2; exact ⟨h1, h2⟩
    | cons b rest ih =>
      intro s h1 h2
      exact ih _ (Nat.mod_lt _ (by norm_num)) (Nat.mod_lt _ (by norm_num))
  dsimp only
  have h := inv l (1, 0) (by norm_num) (by norm_num)
  omega

theorem readU32BE_append (v : Nat) (rest : List Nat) (h : v < 4294967296) :
    readU32BE (write_u32_be v ++ rest) = some (v, rest) := by
  simp only [write_u32_be, List.cons_append, List.nil_append, readU32BE]
  congr 2
  omega

theorem png_parse_chunk_correct (ty data rest : List Nat)
    (hty : ty.length = 4) (hdata : data.length < 4294967296) :
    png_parse_chunk (write_u32_be data.length ++ ty ++ data
        ++ write_u32_be (crc32 (ty ++ data)) ++ rest)
      = some (ty, data, rest) := by
  unfold png_parse_chunk
  rw [List.append_assoc (write_u32_be data.length), List.append_assoc,
    List.append_assoc]
  rw [readU32BE_append _ _ hdata]
  simp only [Option.bind_eq_bind, Option.some_bind]
  rw [if_pos (by
    simp only [List.length_append, write_u32_be, List.length_cons,
      List.length_nil, hty]
    omega)]
  rw [List.append_assoc ty data]
  rw [List.take_left' hty, List.drop_left' hty]
  rw [List.take_left' (rfl : data.length = data.length),
    List.drop_left' (rfl : data.length = data.length)]
  rw [readU32BE_append _ _ (crc32_lt _)]
  simp

theorem stored_blocks_length_ge (raw : List Nat) :
    raw.length ≤ (glyph_png_stored_blocks raw).length := by
  have H : ∀ (n : Nat) (l : List Nat), l.length ≤ n →
      l.length ≤ (glyph_png_stored_blocks l).length := by
    intro n
    induction n with
    | zero =>
      intro l h
      omega
    | succ k ih =>
      intro l h
      rw [glyph_png_stored_blocks]
      by_cases he : l.isEmpty
      · rw [if_pos he]
        simp only [List.isEmpty_iff] at he
        simp [he]
      · rw [if_neg he]
        simp only [List.isEmpty_iff] at he
        have hpos : 0 < l.length := List.length_pos.mpr he
        have hdrop := ih (l.drop 65535) (by simp [List.length_drop]; omega)
        simp only [List.length_append, List.length_cons, List.length_nil,
          List.length_take, List.length_drop, inf_eq_min] at hdrop ⊢
        omega
  exact H raw.length raw (le_refl _)

theorem stored_blocks_length_le (raw : List Nat) :
    (glyph_png_stored_blocks raw).length ≤ 6 * raw.length + 5 := by
  have H : ∀ (n : Nat) (l : List Nat), l.length ≤ n →
      (glyph_png_stored_blocks l).length ≤ 6 * l.length + 5 := by
    intro n
    induction n with
    | zero =>
      intro l h
      have : l = [] := by
        cases l with
        | nil => rfl
        | cons a t => simp at h
      rw [this, glyph_png_stored_blocks]
      simp
    | succ k ih =>
      intro l h
      rw [glyph_png_stored_blocks]
      by_cases he : l.isEmpty
      · rw [if_pos he]; simp
      · rw [if_neg he]
        simp only [List.isEmpty_iff] at he
        have hpos : 0 < l.length := List.length_pos.mpr he
        have hdrop := ih (l.drop 65535) (by simp [List.length_drop]; omega)
        simp only [List.length_append, List.length_cons, List.length_nil,
          List.length_take, List.length_drop, inf_eq_min] at hdrop ⊢
        omega
  exact H raw.length raw (le_refl _)

theorem inflate_stored_blocks (tail : List Nat) :
    ∀ (fuel : Nat) (raw : List Nat), raw ≠ [] → raw.length ≤ 65535 * fuel →
      png_inflate_stored fuel (glyph_png_stored_blocks raw ++ tail)
        = some (raw, tail) := by
  intro fuel
  induction fuel with
  | zero =>
    intro raw h0 hb
    have := List.length_pos.mpr h0
    omega
  | succ f ih =>
    intro raw h0 hb
    have hpos : 0 < raw.length := List.length_pos.mpr h0
    rw [glyph_png_stored_blocks, if_neg (by simp [List.isEmpty_iff, h0])]
    by_cases hle : raw.length ≤ 65535
    · -- single final block
      rw [if_pos hle]
      have htake : raw.take 65535 = raw := List.take_of_length_le (by omega)
      have hdropnil : raw.drop 65535 = [] := List.drop_eq_nil_of_le (by omega)
      have hblocksnil : glyph_png_stored_blocks [] = [] := by
        rw [glyph_png_stored_blocks]; rfl
      rw [htake, hdropnil, hblocksnil]
      simp only [List.cons_append, List.nil_append, List.append_assoc,
        List.append_nil]
      rw [png_inflate_stored]
      rw [if_neg (by norm_num)]
      rw [if_neg (by omega)]
      rw [if_pos (by
        simp only [List.length_append]
        omega)]
      rw [if_pos (by norm_num)]
      rw [show 256 * (Min.min raw.length 65535 / 256) + Min.min raw.length 65535 % 256
          = raw.length by omega]
      rw [List.take_left' rfl, List.drop_left' rfl]
    · -- 65535-byte block, not final
      rw [if_neg hle]
      have htlen : (raw.take 65535).length = 65535 := by
        simp [List.length_take]; omega
      simp only [List.cons_append, List.nil_append, List.append_assoc]
      rw [png_inflate_stored]
      rw [if_neg (by norm_num)]
      rw [if_neg (by omega)]
      rw [if_pos (by
        simp only [List.length_append, htlen]
        omega)]
      rw [if_neg (by norm_num)]
      rw [show 256 * (Min.min raw.length 65535 / 256) + Min.min raw.length 65535 % 256
          = 65535 by omega]
      rw [List.take_left' htlen, List.drop_left' htlen,
        ih (raw.drop 65535)
          (by
            intro hnil
            have := congrArg List.length hnil
            simp [List.length_drop] at this
            omega)
          (by simp [List.length_drop]; omega)]
      simp

theorem zlib_decode_correct (raw : List Nat) (h0 : raw ≠ []) :
    png_zlib_decode (glyph_png_zlib raw) = some raw := by
  unfold glyph_png_zlib png_zlib_decode
  simp only [List.cons_append, List.nil_append]
  rw [if_neg (by norm_num), if_neg (by norm_num), if_neg (by norm_num)]
  have hge := stored_blocks_length_ge raw
  rw [inflate_stored_blocks _ _ raw h0 (by
    simp only [List.length_append, write_u32_be, List.length_cons, List.length_nil]
    omega)]
  simp

theorem png_recon_filter_row (row : List Nat) (hb : ∀ b ∈ row, b < 256) :
    ∀ i, i < row.length →
      png_recon_byte ((List.range row.length).map (fun i =>
        if i < 3 then row.getD i 0
        else (row.getD i 0 + 256 - row.getD (i - 3) 0) % 256)) i
      = row.getD i 0 := by
  have hmem : ∀ j, j < row.length → row.getD j 0 < 256 := by
    intro j hj
    rw [List.getD_eq_getElem _ _ hj]
    exact hb _ (List.getElem_mem hj)
  intro i
  induction i using Nat.strong_induction_on with
  | _ i ih =>
    intro hi
    rw [png_recon_byte, map_range_getD _ _ _ _ hi]
    by_cases h3 : i < 3
    · rw [if_pos h3, if_pos h3, Nat.mod_eq_of_lt (hmem i hi)]
    · rw [if_neg h3, if_neg h3, ih (i - 3) (by omega) (by omega)]
      have h1 := hmem i hi
      have h2 := hmem (i - 3) (by omega)
      omega

theorem png_unfilter_filter_row (row : List Nat) (hb : ∀ b ∈ row, b < 256) :
    png_unfilter_row (glyph_png_filter_row row) = some row := by
  unfold glyph_png_filter_row png_unfilter_row
  dsimp only
  rw [if_neg (by norm_num), if_pos rfl]
  congr 1
  apply List.ext_getElem (by simp)
  intro i h1 h2
  simp only [List.getElem_map, List.getElem_range, List.length_map,
    List.length_range] at h1 ⊢
  rw [png_recon_filter_row row hb i (by simpa using h2)]
  exact List.getD_eq_getElem _ _ h2

theorem read_chunks_idat (data rest acc : List Nat) (fuel : Nat)
    (hdata : data.length < 4294967296) :
    png_read_chunks (fuel + 1)
      (write_u32_be data.length ++ [73, 68, 65, 84] ++ data
        ++ write_u32_be (crc32 ([73, 68, 65, 84] ++ data)) ++ rest) acc
    = png_read_chunks fuel rest (acc ++ data) := by
  simp only [png_read_chunks]
  rw [png_parse_chunk_correct _ _ _ (by decide) hdata]
  simp only [Option.bind_eq_bind, Option.some_bind]
  rw [if_neg (by decide)]
  simp

theorem read_chunks_iend (acc : List Nat) (fuel : Nat) :
    png_read_chunks (fuel + 1)
      (write_u32_be 0 ++ [73, 69, 78, 68] ++ write_u32_be (crc32 [73, 69, 78, 68]))
      acc
    = some acc := by
  have h : write_u32_be 0 ++ [73, 69, 78, 68] ++ write_u32_be (crc32 [73, 69, 78, 68])
      = write_u32_be ([] : List Nat).length ++ [73, 69, 78, 68] ++ []
        ++ write_u32_be (crc32 ([73, 69, 78, 68] ++ [])) ++ [] := by
    simp
  rw [h]
  simp only [png_read_chunks]
  rw [png_parse_chunk_correct _ _ _ (by decide) (by simp)]
  simp

theorem chunk_types_chunk (ty data rest : List Nat) (fuel : Nat)
    (hty : ty.length = 4) (hdata : data.length < 4294967296) :
    png_chunk_types (fuel + 1)
      (write_u32_be data.length ++ ty ++ data
        ++ write_u32_be (crc32 (ty ++ data)) ++ rest)
    = (png_chunk_types fuel rest).bind (fun more => some (ty :: more)) := by
  simp only [png_chunk_types]
  rw [if_neg (by simp [write_u32_be])]
  rw [png_parse_chunk_correct _ _ _ hty hdata]
  simp

theorem chunk_types_nil (fuel : Nat) : png_chunk_types (fuel + 1) [] = some [] := by
  simp [png_chunk_types]

theorem filter_row_length (row : List Nat) :
    (glyph_png_filter_row row).length = row.length + 1 := by
  simp [glyph_png_filter_row]

theorem png_raw_row_length (img : glyph_image_t)
    (hlen : img.data.length = img.width * img.height * 3) (y : Nat)
    (hy : y < img.height) :
    ((img.data.drop (y * img.width * 3)).take (img.width * 3)).length
      = img.width * 3 := by
  simp only [List.length_take, List.length_drop, hlen, inf_eq_min]
  have : y * img.width * 3 + img.width * 3 ≤ img.width * img.height * 3 := by
    have h1 : (y + 1) * (img.width * 3) ≤ img.height * (img.width * 3) :=
      Nat.mul_le_mul_right _ (by omega)
    calc y * img.width * 3 + img.width * 3 = (y + 1) * (img.width * 3) := by ring
    _ ≤ img.height * (img.width * 3) := h1
    _ = img.width * img.height * 3 := by ring
  omega

theorem png_raw_length (img : glyph_image_t)
    (hlen : img.data.length = img.width * img.height * 3) :
    (glyph_png_raw img).length = (img.width * 3 + 1) * img.height := by
  unfold glyph_png_raw
  rw [flatten_uniform_length _ (img.width * 3 + 1) (fun r hr => by
    rcases List.mem_map.mp hr with ⟨y, hy, rfl⟩
    rw [filter_row_length, png_raw_row_length img hlen y (List.mem_range.mp hy)])]
  simp [Nat.mul_comm]

theorem mapM_option_map {α β γ : Type} (f : β → Option γ) (g : α → β)
    (k : α → γ) (l : List α) (h : ∀ a ∈ l, f (g a) = some (k a)) :
    (l.map g).mapM f = some (l.map k) := by
  induction l with
  | nil => rfl
  | cons a rest ih =>
    rw [List.map_cons, List.mapM_cons, h a (by simp),
      ih (fun x hx => h x (by simp [hx]))]
    rfl

/-- The IHDR chunk data with the `uint32` casts of width/height removed
(they are below 2^32 in every claim instance). -/
theorem png_ihdr_data_eq (img : glyph_image_t) (hW : img.width < 4294967296)
    (hH : img.height < 4294967296) :
    glyph_png_ihdr_data img
      = write_u32_be img.width ++ (write_u32_be img.height ++ [8, 2, 0, 0, 0]) := by
  unfold glyph_png_ihdr_data
  rw [Nat.mod_eq_of_lt hW, Nat.mod_eq_of_lt hH, List.append_assoc]

theorem read_chunks_iend_pos (acc : List Nat) (fuel : Nat) (hf : 0 < fuel) :
    png_read_chunks fuel
      (write_u32_be 0 ++ [73, 69, 78, 68] ++ write_u32_be (crc32 [73, 69, 78, 68]))
      acc
    = some acc := by
  cases fuel with
  | zero => omega
  | succ f => exact read_chunks_iend acc f

theorem chunk_types_chunk_pos (ty data rest : List Nat) (fuel : Nat)
    (hf : 0 < fuel) (hty : ty.length = 4) (hdata : data.length < 4294967296) :
    png_chunk_types fuel
      (write_u32_be data.length ++ ty ++ data
        ++ write_u32_be (crc32 (ty ++ data)) ++ rest)
    = (png_chunk_types (fuel - 1) rest).bind (fun more => some (ty :: more)) := by
  cases fuel with
  | zero => omega
  | succ f => exact chunk_types_chunk ty data rest f hty hdata

theorem chunk_types_nil_pos (fuel : Nat) (hf : 0 < fuel) :
    png_chunk_types fuel [] = some [] := by
  cases fuel with
  | zero => omega
  | succ f => exact chunk_types_nil f

/-- C1: for every RGB image with positive dimensions (bounded by 4096 so
every byte count fits the format's 32-bit fields), the PNG writer's byte
stream is a well-formed PNG: the standard-conforming decoder model
`png_decode_spec` (signature, CRC-checked chunks, IHDR for WxH 8-bit RGB,
zlib header, DEFLATE stored blocks of at most 65535 bytes, Adler32 of the
Sub-filtered row stream, Sub unfiltering) accepts it and reproduces the
original RGB buffer byte for byte; the zero-length IEND chunk's CRC32 is
the fixed constant 0xAE426082 = crc32 of the 4 ASCII bytes of IEND; and
the stream consists of exactly the chunks IHDR, a single IDAT, IEND. -/
theorem claim_C1_png_roundtrip (img : glyph_image_t)
    (hW : 0 < img.width) (hH : 0 < img.height)
    (hWb : img.width < 4096) (hHb : img.height < 4096)
    (hlen : img.data.length = img.width * img.height * 3)
    (hbytes : ∀ b ∈ img.data, b < 256) :
    png_decode_spec (glyph_write_png_bytes img)
      = some (img.width, img.height, img.data)
    ∧ crc32 [73, 69, 78, 68] = 0xAE426082
    ∧ png_chunk_types (glyph_write_png_bytes img).length
        ((glyph_write_png_bytes img).drop 8)
      = some [[73, 72, 68, 82], [73, 68, 65, 84], [73, 69, 78, 68]] := by
  have hrawlen := png_raw_length img hlen
  have hrawpos : 0 < (glyph_png_raw img).length := by
    rw [hrawlen]; exact Nat.mul_pos (by omega) hH
  have hrawne : glyph_png_raw img ≠ [] := by
    intro h; rw [h] at hrawpos; simp at hrawpos
  have hrawbound : (glyph_png_raw img).length ≤ 12286 * 4095 := by
    rw [hrawlen]; exact Nat.mul_le_mul (by omega) (by omega)
  have hcomplt : (glyph_png_zlib (glyph_png_raw img)).length < 4294967296 := by
    have hb := stored_blocks_length_le (glyph_png_raw img)
    have hc : (glyph_png_zlib (glyph_png_raw img)).length
        = 2 + (glyph_png_stored_blocks (glyph_png_raw img)).length + 4 := by
      simp [glyph_png_zlib, write_u32_be]
      omega
    omega
  have hihdr13 : (glyph_png_ihdr_data img).length = 13 := by
    simp [glyph_png_ihdr_data, write_u32_be]
  have hdecomp : glyph_write_png_bytes img = ([137, 80, 78, 71, 13, 10, 26, 10] ++ (write_u32_be 13 ++ ([73, 72, 68, 82] ++ (glyph_png_ihdr_data img ++ (write_u32_be (crc32 ([73, 72, 68, 82] ++ glyph_png_ihdr_data img)) ++ (write_u32_be (glyph_png_zlib (glyph_png_raw img)).length ++ ([73, 68, 65, 84] ++ (glyph_png_zlib (glyph_png_raw img) ++ (write_u32_be (crc32 ([73, 68, 65, 84] ++ glyph_png_zlib (glyph_png_raw img))) ++ (write_u32_be 0 ++ ([73, 69, 78, 68] ++ write_u32_be (crc32 [73, 69, 78, 68])))))))))))) := by
    unfold glyph_write_png_bytes
    rw [Nat.mod_eq_of_lt hcomplt]
    simp only [List.append_assoc]
  refine ⟨?_, by decide, ?_⟩
  · unfold png_decode_spec
    rw [hdecomp]
    rw [if_neg (by
      rw [List.take_left' (by rfl)]
      simp)]
    rw [List.drop_left' (by rfl)]
    have hpIhdr := png_parse_chunk_correct [73, 72, 68, 82] (glyph_png_ihdr_data img)
      ((write_u32_be (glyph_png_zlib (glyph_png_raw img)).length ++ ([73, 68, 65, 84] ++ (glyph_png_zlib (glyph_png_raw img) ++ (write_u32_be (crc32 ([73, 68, 65, 84] ++ glyph_png_zlib (glyph_png_raw img))) ++ (write_u32_be 0 ++ ([73, 69, 78, 68] ++ write_u32_be (crc32 [73, 69, 78, 68]))))))))
      (by decide) (by rw [hihdr13]; norm_num)
    rw [hihdr13] at hpIhdr
    simp only [List.append_assoc] at hpIhdr
    rw [hpIhdr]
    simp only [Option.bind_eq_bind, Option.some_bind]
    rw [if_neg (by decide)]
    rw [png_ihdr_data_eq img (by omega) (by omega)]
    rw [readU32BE_append _ _ (by omega)]
    simp only [Option.some_bind]
    rw [readU32BE_append _ _ (by omega)]
    simp only [Option.some_bind]
    rw [if_neg (by decide)]
    rw [if_neg (by omega)]
    have hpidat := read_chunks_idat (glyph_png_zlib (glyph_png_raw img))
      ((write_u32_be 0 ++ ([73, 69, 78, 68] ++ write_u32_be (crc32 [73, 69, 78, 68])))) [] ((write_u32_be (glyph_png_zlib (glyph_png_raw img)).length ++ ([73, 68, 65, 84] ++ (glyph_png_zlib (glyph_png_raw img) ++ (write_u32_be (crc32 ([73, 68, 65, 84] ++ glyph_png_zlib (glyph_png_raw img))) ++ (write_u32_be 0 ++ ([73, 69, 78, 68] ++ write_u32_be (crc32 [73, 69, 78, 68])))))))).length hcomplt
    simp only [List.append_assoc] at hpidat
    rw [hpidat]
    simp only [List.nil_append]
    have hpend := read_chunks_iend_pos (glyph_png_zlib (glyph_png_raw img))
      ((write_u32_be (glyph_png_zlib (glyph_png_raw img)).length ++ ([73, 68, 65, 84] ++ (glyph_png_zlib (glyph_png_raw img) ++ (write_u32_be (crc32 ([73, 68, 65, 84] ++ glyph_png_zlib (glyph_png_raw img))) ++ (write_u32_be 0 ++ ([73, 69, 78, 68] ++ write_u32_be (crc32 [73, 69, 78, 68])))))))).length (by simp [write_u32_be])
    simp only [List.append_assoc] at hpend
    rw [hpend]
    simp only [Option.some_bind]
    rw [zlib_decode_correct _ hrawne]
    simp only [Option.some_bind]
    rw [if_pos hrawlen]
    have hrowuniform : ∀ r ∈ (List.range img.height).map (fun y =>
        glyph_png_filter_row ((img.data.drop (y * img.width * 3)).take (img.width * 3))),
        r.length = img.width * 3 + 1 := by
      intro r hr
      rcases List.mem_map.mp hr with ⟨y, hy, rfl⟩
      rw [filter_row_length, png_raw_row_length img hlen y (List.mem_range.mp hy)]
    have hrows : ∀ y ∈ List.range img.height,
        List.take (img.width * 3 + 1)
          (List.drop (y * (img.width * 3 + 1)) (glyph_png_raw img))
        = glyph_png_filter_row
            ((img.data.drop (y * img.width * 3)).take (img.width * 3)) := by
      intro y hy
      have hy' := List.mem_range.mp hy
      unfold glyph_png_raw
      rw [flatten_rows_take_drop _ (img.width * 3 + 1) hrowuniform y (by simpa using hy')]
      rw [map_range_getD _ _ _ _ hy']
    rw [List.map_congr_left hrows]
    rw [mapM_option_map png_unfilter_row _
      (fun y => (img.data.drop (y * img.width * 3)).take (img.width * 3))
      (List.range img.height)
      (fun y hy => png_unfilter_filter_row _
        (fun b hb => hbytes b (List.mem_of_mem_drop (List.mem_of_mem_take hb))))]
    simp only [Option.some_bind]
    rw [List.map_congr_left (fun (y : Nat) _ => by
      rw [Nat.mul_assoc] :
      ∀ y ∈ List.range img.height,
        (img.data.drop (y * img.width * 3)).take (img.width * 3)
        = (img.data.drop (y * (img.width * 3))).take (img.width * 3))]
    rw [flatten_chunks (img.width * 3) img.height img.data (by rw [hlen]; ring)]
  · rw [hdecomp]
    rw [List.drop_left' (by rfl)]
    have hp1 := chunk_types_chunk_pos [73, 72, 68, 82] (glyph_png_ihdr_data img)
      ((write_u32_be (glyph_png_zlib (glyph_png_raw img)).length ++ ([73, 68, 65, 84] ++ (glyph_png_zlib (glyph_png_raw img) ++ (write_u32_be (crc32 ([73, 68, 65, 84] ++ glyph_png_zlib (glyph_png_raw img))) ++ (write_u32_be 0 ++ ([73, 69, 78, 68] ++ write_u32_be (crc32 [73, 69, 78, 68]))))))))
      (([137, 80, 78, 71, 13, 10, 26, 10] ++ (write_u32_be 13 ++ ([73, 72, 68, 82] ++ (glyph_png_ihdr_data img ++ (write_u32_be (crc32 ([73, 72, 68, 82] ++ glyph_png_ihdr_data img)) ++ (write_u32_be (glyph_png_zlib (glyph_png_raw img)).length ++ ([73, 68, 65, 84] ++ (glyph_png_zlib (glyph_png_raw img) ++ (write_u32_be (crc32 ([73, 68, 65, 84] ++ glyph_png_zlib (glyph_png_raw img))) ++ (write_u32_be 0 ++ ([73, 69, 78, 68] ++ write_u32_be (crc32 [73, 69, 78, 68]))))))))))))).length
      (by simp) (by decide) (by rw [hihdr13]; norm_num)
    rw [hihdr13] at hp1
    simp only [List.append_assoc] at hp1
    rw [hp1]
    have hp2 := chunk_types_chunk_pos [73, 68, 65, 84] (glyph_png_zlib (glyph_png_raw img))
      ((write_u32_be 0 ++ ([73, 69, 78, 68] ++ write_u32_be (crc32 [73, 69, 78, 68]))))
      ((([137, 80, 78, 71, 13, 10, 26, 10] ++ (write_u32_be 13 ++ ([73, 72, 68, 82] ++ (glyph_png_ihdr_data img ++ (write_u32_be (crc32 ([73, 72, 68, 82] ++ glyph_png_ihdr_data img)) ++ (write_u32_be (glyph_png_zlib (glyph_png_raw img)).length ++ ([73, 68, 65, 84] ++ (glyph_png_zlib (glyph_png_raw img) ++ (write_u32_be (crc32 ([73, 68, 65, 84] ++ glyph_png_zlib (glyph_png_raw img))) ++ (write_u32_be 0 ++ ([73, 69, 78, 68] ++ write_u32_be (crc32 [73, 69, 78, 68]))))))))))))).length - 1)
      (by simp [write_u32_be]) (by decide) hcomplt
    simp only [List.append_assoc] at hp2
    rw [hp2]
    have hp3 := chunk_types_chunk_pos [73, 69, 78, 68] [] []
      ((([137, 80, 78, 71, 13, 10, 26, 10] ++ (write_u32_be 13 ++ ([73, 72, 68, 82] ++ (glyph_png_ihdr_data img ++ (write_u32_be (crc32 ([73, 72, 68, 82] ++ glyph_png_ihdr_data img)) ++ (write_u32_be (glyph_png_zlib (glyph_png_raw img)).length ++ ([73, 68, 65, 84] ++ (glyph_png_zlib (glyph_png_raw img) ++ (write_u32_be (crc32 ([73, 68, 65, 84] ++ glyph_png_zlib (glyph_png_raw img))) ++ (write_u32_be 0 ++ ([73, 69, 78, 68] ++ write_u32_be (crc32 [73, 69, 78, 68]))))))))))))).length - 1 - 1)
      (by simp [write_u32_be]) (by decide) (by simp)
    simp only [List.length_nil, List.append_nil, List.nil_append,
      List.append_assoc] at hp3
    rw [hp3]
    rw [chunk_types_nil_pos _ (by simp [write_u32_be])]
    simp

/-- C1 witness: the 1x1 image with pixel (10, 20, 30) round-trips through
the decoder, and its chunk stream is exactly IHDR, IDAT, IEND. -/
theorem claim_C1_png_roundtrip_witness :
    png_decode_spec (glyph_write_png_bytes img1x1) = some (1, 1, [10, 20, 30])
    ∧ png_chunk_types (glyph_write_png_bytes img1x1).length
        ((glyph_write_png_bytes img1x1).drop 8)
      = some [[73, 72, 68, 82], [73, 68, 65, 84], [73, 69, 78, 68]] := by
  have h := claim_C1_png_roundtrip img1x1 (by decide) (by decide) (by decide)
    (by decide) (by decide) (by decide)
  exact ⟨h.1, h.2.2⟩
